import Mathlib

/-!
# A DNS server's TSIG plugin, transfer setup and directive generator

Three parts, each a shallow embedding of one source file: `plugin/tsig/tsig.go`
(namespace `Tsig`), `plugin/transfer/setup.go` (namespace `TransferPlugin`) and
`directives_generate.go` (namespace `DirectivesGenerate`).  The definitions of
all three come first, their lemmas and properties after.

## TSIG plugin: `plugin/tsig/tsig.go`

The Go handler `TSIGServer.ServeDNS` and the response-writer decorator
`restoreTsigWriter.WriteMsg` are embedded as Lean functions over an explicit
`World`: the message the request pointer refers to, what has been
transmitted to the client, and the clock.  A
`dns.ResponseWriter` is an interface value, embedded as a record of its
methods; the next handler of the chain is an arbitrary function of the writer
it is given and of the world.

Machine integers are natural numbers (`uint16`, `uint64`) or integers
(`int`, `int64`); a run-time panic (a nil pointer dereference) is the result
`none`.
-/

namespace Tsig

/-! ## DNS constants (`github.com/miekg/dns`) -/

def RcodeSuccess : Int := 0
def RcodeFormatError : Int := 1
def RcodeServerFailure : Int := 2
def RcodeNameError : Int := 3
def RcodeNotImplemented : Int := 4
def RcodeRefused : Int := 5
def RcodeNotAuth : Int := 9
def RcodeBadSig : Nat := 16
def RcodeBadKey : Nat := 17
def RcodeBadTime : Nat := 18

def TypeOPT : Nat := 41
def TypeTSIG : Nat := 250
def ClassANY : Nat := 255
def OpcodeQuery : Int := 0

/-! ## Data model -/

/-- Go `error` values as the handler compares them: the two sentinels
`dns.ErrSecret` and `dns.ErrTime`, and any other error, known by its text. -/
inductive GoError where
  | ErrSecret
  | ErrTime
  | other (text : String)
  deriving DecidableEq, Repr

/-- The header `dns.RR_Header` every resource record starts with. -/
structure RR_Header where
  Name : String := ""
  Rrtype : Nat := 0
  Class : Nat := 0
  Ttl : Nat := 0
  Rdlength : Nat := 0
  deriving DecidableEq, Repr

/-- The transaction signature record `dns.TSIG`; the defaults are Go's zero
value, which is what `new(dns.TSIG)` yields. -/
structure TSIG where
  Hdr : RR_Header := {}
  Algorithm : String := ""
  TimeSigned : Nat := 0
  Fudge : Nat := 0
  MACSize : Nat := 0
  MAC : String := ""
  OrigId : Nat := 0
  Error : Nat := 0
  OtherLen : Nat := 0
  OtherData : String := ""
  deriving DecidableEq, Repr

/-- The EDNS0 pseudo record `dns.OPT`: its header carries the UDP size in
`Class` and the version and flags in `Ttl`; the options are code and data. -/
structure OPT where
  Hdr : RR_Header := {}
  Option : List (Nat × String) := []
  deriving DecidableEq, Repr

/-- A resource record `dns.RR`: the two record types the plugin looks at, and
every other type with its data uninterpreted. -/
inductive RR where
  | tsig (t : TSIG)
  | opt (o : OPT)
  | other (hdr : RR_Header) (rdata : String)
  deriving DecidableEq, Repr

/-- The method `Header()` of a record. -/
def RR.Header : RR → RR_Header
  | .tsig t => t.Hdr
  | .opt o => o.Hdr
  | .other hdr _ => hdr

/-- A question `dns.Question`. -/
structure Question where
  Name : String := ""
  Qtype : Nat := 0
  Qclass : Nat := 0
  deriving DecidableEq, Repr

/-- A message `dns.Msg` with the fields of its header `dns.MsgHdr` inlined;
the defaults are Go's zero value, which is what `new(dns.Msg)` yields. -/
structure Msg where
  Id : Nat := 0
  Response : Bool := false
  Opcode : Int := 0
  Authoritative : Bool := false
  Truncated : Bool := false
  RecursionDesired : Bool := false
  RecursionAvailable : Bool := false
  Zero : Bool := false
  AuthenticatedData : Bool := false
  CheckingDisabled : Bool := false
  Rcode : Int := 0
  Compress : Bool := false
  Question : List Question := []
  Answer : List RR := []
  Ns : List RR := []
  Extra : List RR := []
  deriving DecidableEq, Repr

/-- The mutable state a request is served in: `req` is the message the request
pointer `r` refers to (handlers change it in place), `sent` is what the
connection to the client has transmitted so far, oldest first, `now` is what
`time.Now().Unix()` returns. -/
structure World where
  req : Msg
  sent : List Msg := []
  now : Int := 0
  deriving DecidableEq, Repr

/-- A `dns.ResponseWriter`, as far as the plugin uses the interface: the TSIG
verification status the server attached to the connection, and `WriteMsg`,
which returns the transmission error (if any) and may change the world. -/
structure ResponseWriter where
  TsigStatus : Option GoError
  WriteMsg : Msg → World → Option GoError × World

/-- The writer of a connection to the client: `WriteMsg` transmits the
message, which the world records, and reports `result`. -/
def connWriter (status : Option GoError) (result : Msg → Option GoError) : ResponseWriter :=
  { TsigStatus := status
    WriteMsg := fun m s => (result m, { s with sent := s.sent ++ [m] }) }

/-- A `plugin.Handler`: its `ServeDNS` gets a writer and the request (in the
world) and returns the response code and an error. -/
def Handler : Type := ResponseWriter → World → (Int × Option GoError) × World

/-! ## Library functions on messages (`github.com/miekg/dns`) -/

/-- The method `Msg.IsTsig`: the TSIG record of a message, which is its last additional
record when that one has type TSIG, and nil otherwise. -/
def Msg.IsTsig (m : Msg) : Option TSIG :=
  match m.Extra.getLast? with
  | some (.tsig t) => if t.Hdr.Rrtype = TypeTSIG then some t else none
  | _ => none

/-- The loop of `Msg.IsEdns0` over the additional section, last record
first (the list is given reversed). -/
def findOPT : List RR → Option OPT
  | [] => none
  | .opt o :: rest => if o.Hdr.Rrtype = TypeOPT then some o else findOPT rest
  | _ :: rest => findOPT rest

/-- The method `Msg.IsEdns0`: the OPT record of a message, searched from the end of the
additional section. -/
def Msg.IsEdns0 (m : Msg) : Option OPT := findOPT m.Extra.reverse

/-- The method `Msg.SetReply`: make `m` a reply to `request`. -/
def Msg.SetReply (m request : Msg) : Msg :=
  let m := { m with Id := request.Id, Response := true, Opcode := request.Opcode }
  let m := if m.Opcode = OpcodeQuery then
      { m with RecursionDesired := request.RecursionDesired,
               CheckingDisabled := request.CheckingDisabled }
    else m
  let m := { m with Rcode := RcodeSuccess }
  match request.Question with
  | q :: _ => { m with Question := [q] }
  | [] => m

/-- The method `Msg.SetRcode`: make `m` a reply to `request` with response code `rcode`. -/
def Msg.SetRcode (m request : Msg) (rcode : Int) : Msg :=
  { m.SetReply request with Rcode := rcode }

/-! ## Helpers of the repository the plugin calls -/

/-- ASCII lower case of a name, as `strings.ToLower` gives it. -/
def lowerName (n : String) : List Char := n.data.map Char.toLower

/-- The labels of a domain name: the runs of characters between dots; `cur` is
the label being read, last character first. -/
def labelsFrom : List Char → List Char → List (List Char)
  | [], cur => if cur = [] then [] else [cur.reverse]
  | c :: cs, cur =>
    if c = '.' then
      if cur = [] then labelsFrom cs [] else cur.reverse :: labelsFrom cs []
    else labelsFrom cs (c :: cur)

/-- The function `dns.IsSubDomain`: every label of `parent` is, compared from the right and
without regard to case, a label of `child`. -/
def IsSubDomain (parent child : String) : Bool :=
  (labelsFrom (lowerName parent) []).isSuffixOf (labelsFrom (lowerName child) [])

/-- Modelled from the spec: `plugin.Zones.Matches` is not among the sources.
"Membership = case-insensitive longest-suffix match; empty match means not
mine": the longest configured zone the query name lies in, or the empty string. -/
def Zones.Matches (z : List String) (qname : String) : String :=
  z.foldl (fun zone zname =>
    if IsSubDomain zname qname && decide (zname.utf8ByteSize > zone.utf8ByteSize)
    then zname else zone) ""

/-- Modelled from the spec: `request.Request.Name` is not among the sources.
The query name of the message in lower case, `"."` when there is no question. -/
def Request.Name (r : Msg) : String :=
  match r.Question with
  | [] => "."
  | q :: _ => String.mk (lowerName q.Name)

/-- Modelled from the spec: `request.Request.QType` is not among the sources.
The type of the first question, 0 when there is none. -/
def Request.QType (r : Msg) : Nat :=
  match r.Question with
  | [] => 0
  | q :: _ => q.Qtype

/-- Modelled from the spec: `plugin.NextOrFailure` is not among the sources.
A handler "delegates to the next handler and returns whatever it returns"; an
exhausted chain is the distinguished no-handler failure with the
server-failure code. -/
def NextOrFailure (name : String) (next : Option Handler) (w : ResponseWriter) (s : World) :
    (Int × Option GoError) × World :=
  match next with
  | some h => h w s
  | none => ((RcodeServerFailure, some (.other ("plugin/" ++ name ++ ": no next plugin found"))), s)

/-- Modelled from the spec: `plugin.ClientWrite` is not among the sources.
Whether a returned code stands for a response already written to the client:
false for server failure, refused, format error and not implemented. -/
def ClientWrite (rcode : Int) : Bool :=
  if rcode = RcodeServerFailure then false
  else if rcode = RcodeRefused then false
  else if rcode = RcodeFormatError then false
  else if rcode = RcodeNotImplemented then false
  else true

/-- Part of the model of `SizeAndDo`: the version and flag bits of an OPT
header reset, version 0 and then `Ttl &= 0xff00`. -/
def clearVersionAndFlags (h : RR_Header) : RR_Header :=
  { h with Ttl := ((h.Ttl &&& 0xFF00FFFF) ||| 0) &&& 0xff00 }

/-- The method `OPT.Do`: the DNSSEC-OK bit. -/
def OPT.Do (o : OPT) : Bool := o.Hdr.Ttl &&& 0x8000 = 0x8000

/-- Part of the model of `SizeAndDo`: the OPT record `mo` of a response
brought in line with the OPT record `o` of the request (name, type, version,
UDP size, flags, DNSSEC-OK bit). -/
def normaliseOPT (o mo : OPT) : OPT :=
  let h := clearVersionAndFlags { mo.Hdr with Name := ".", Rrtype := TypeOPT }
  let h := { h with Class := o.Hdr.Class }
  { mo with Hdr := if o.Do then { h with Ttl := h.Ttl ||| 0x8000 } else h }

/-- Part of the model of `SizeAndDo`: apply `f` to the record `Msg.IsEdns0`
finds; the list is the additional section reversed. -/
def mapFirstOPT (f : OPT → OPT) : List RR → List RR
  | [] => []
  | .opt o :: rest =>
    if o.Hdr.Rrtype = TypeOPT then .opt (f o) :: rest else .opt o :: mapFirstOPT f rest
  | rr :: rest => rr :: mapFirstOPT f rest

/-- Modelled from the spec: `request.Request.SizeAndDo` is not among the
sources.  "Any size/extension negotiation record must already be present in
the message" before the authentication record is appended: when the request
has an OPT record, an OPT record the response already has is brought in line
with it, and otherwise the request's OPT record is appended to the response's
additional section.  The EDNS0 options of the record are left as they are, and
so is the request. -/
def SizeAndDo (req m : Msg) : Msg :=
  match req.IsEdns0 with
  | none => m
  | some o =>
    match m.IsEdns0 with
    | some _ => { m with Extra := (mapFirstOPT (normaliseOPT o) m.Extra.reverse).reverse }
    | none => { m with Extra := m.Extra ++ [.opt { o with Hdr := clearVersionAndFlags o.Hdr }] }

/-! ## `plugin/tsig/tsig.go` -/

def pluginName : String := "tsig"

/-- The set of query types `qTypes`, a Go map with empty values. -/
abbrev qTypes : Type := List Nat

/-- The handler `TSIGServer`. -/
structure TSIGServer where
  Zones : List String
  secrets : List (String × String)
  types : qTypes
  all : Bool
  Next : Option Handler

def TSIGServer.Name (_ : TSIGServer) : String := pluginName

/-- The method `TSIGServer.tsigRequired` (lines 92 to 100). -/
def TSIGServer.tsigRequired (t : TSIGServer) (qtype : Nat) : Bool :=
  if t.all then true
  else if qtype ∈ t.types then true
  else false

/-- The decorator `restoreTsigWriter`.  Its field `req` points to the request
being served, which is `World.req`; `reqTSIG` is the TSIG record the request
arrived with, as it is when a message is written. -/
structure restoreTsigWriter where
  ResponseWriter : ResponseWriter
  reqTSIG : Option TSIG

/-- The conversion `uint64(x)` of an `int64`. -/
def uint64 (x : Int) : Nat := (x % 2 ^ 64).toNat

/-- The function `binary.BigEndian.PutUint64` into a buffer of 8 bytes. -/
def PutUint64 (v : Nat) : List Nat :=
  [v / 2 ^ 56 % 256, v / 2 ^ 48 % 256, v / 2 ^ 40 % 256, v / 2 ^ 32 % 256,
   v / 2 ^ 24 % 256, v / 2 ^ 16 % 256, v / 2 ^ 8 % 256, v % 256]

/-- One digit of `hex.EncodeToString`. -/
def hexDigit (d : Nat) : Char := "0123456789abcdef".data.getD d '0'

/-- The function `hex.EncodeToString`: two lower-case digits for each byte. -/
def hexEncode (b : List Nat) : String :=
  String.mk (b.flatMap fun x => [hexDigit (x / 16), hexDigit (x % 16)])

/-- The TSIG record `restoreTsigWriter.WriteMsg` builds for the message `m`
(lines 118 to 139). -/
def restoreTsigWriter.newTSIG (reqTSIG : TSIG) (m : Msg) (now : Int) : TSIG :=
  let repTSIG : TSIG := {}
  let repTSIG := { repTSIG with
    Hdr := { Name := reqTSIG.Hdr.Name, Rrtype := TypeTSIG, Class := ClassANY } }
  let repTSIG := { repTSIG with Algorithm := reqTSIG.Algorithm }
  let repTSIG := { repTSIG with OrigId := m.Id }
  let repTSIG := { repTSIG with Error := reqTSIG.Error }
  let repTSIG := { repTSIG with MAC := reqTSIG.MAC }
  let repTSIG := { repTSIG with MACSize := reqTSIG.MACSize }
  let repTSIG : TSIG :=
    if repTSIG.Error = RcodeBadTime then
      let b := PutUint64 (uint64 now)
      { repTSIG with TimeSigned := reqTSIG.TimeSigned,
                     OtherData := hexEncode (b.drop 2), OtherLen := 6 }
    else repTSIG
  if repTSIG.Error > 0 ∧ repTSIG.Error ≠ RcodeBadTime then
    { repTSIG with MAC := "", MACSize := 0 }
  else repTSIG

/-- The message `restoreTsigWriter.WriteMsg` hands to the embedded writer
(lines 113 to 141): `m` with the OPT record seen to and the TSIG record
appended. -/
def restoreTsigWriter.message (reqTSIG : Option TSIG) (m : Msg) (s : World) : Msg :=
  let m := SizeAndDo s.req m
  let repTSIG := m.IsTsig
  match reqTSIG, repTSIG with
  | some reqTSIG, none =>
    { m with Extra := m.Extra ++ [.tsig (restoreTsigWriter.newTSIG reqTSIG m s.now)] }
  | _, _ => m

/-- The method `restoreTsigWriter.WriteMsg`: adds a TSIG RR to the response. -/
def restoreTsigWriter.WriteMsg (r : restoreTsigWriter) (m : Msg) (s : World) :
    Option GoError × World :=
  r.ResponseWriter.WriteMsg (restoreTsigWriter.message r.reqTSIG m s) s

/-- The decorator as a `dns.ResponseWriter`: `TsigStatus` is the embedded
writer's, `WriteMsg` is its own. -/
def restoreTsigWriter.toWriter (r : restoreTsigWriter) : Tsig.ResponseWriter :=
  { TsigStatus := r.ResponseWriter.TsigStatus, WriteMsg := r.WriteMsg }

/-- The error code the verification-failure branch stores in the request's
TSIG record (lines 55 to 65). -/
def tsigErrorCode : GoError → Nat
  | .ErrSecret => RcodeBadKey
  | .ErrTime => RcodeBadTime
  | _ => RcodeBadSig

/-- The request after line 72 to 76: the last additional record cut off. -/
def stripTsig (r : Msg) : Msg :=
  if r.Extra.length > 1 then { r with Extra := r.Extra.take (r.Extra.length - 1) }
  else { r with Extra := [] }

/-- The method `TSIGServer.ServeDNS` (lines 31 to 90).  The result is `none`
when the handler panics on the nil TSIG record.  The TSIG record `tsigRR` is
shared between the request's additional section and the decorator, so the
store to `tsigRR.Error` shows in both; the decorator's `req` is the request
`r` itself, so it sees the request as it is when a message is written. -/
def TSIGServer.ServeDNS (t : TSIGServer) (w : ResponseWriter) (s : World) :
    Option ((Int × Option GoError) × World) :=
  let r := s.req
  if Zones.Matches t.Zones (Request.Name r) = "" then
    some (NextOrFailure t.Name t.Next w s)
  else
    let tsigRR := r.IsTsig
    let rcode := RcodeSuccess
    if !t.tsigRequired (Request.QType r) && tsigRR.isNone then
      some (NextOrFailure t.Name t.Next w s)
    else
      let rcode := if tsigRR.isNone then RcodeRefused else rcode
      match w.TsigStatus with
      | some err =>
        let rcode := RcodeNotAuth
        match tsigRR with
        | none => none
        | some tsigRR =>
          let tsigRR := { tsigRR with Error := tsigErrorCode err }
          let r := { r with Extra := r.Extra.dropLast ++ [.tsig tsigRR] }
          let s := { s with req := r }
          let w : restoreTsigWriter := { ResponseWriter := w, reqTSIG := some tsigRR }
          let resp := Msg.SetRcode {} r rcode
          let s := (w.WriteMsg resp s).2
          some ((RcodeSuccess, none), s)
      | none =>
        let w : restoreTsigWriter := { ResponseWriter := w, reqTSIG := tsigRR }
        let s := { s with req := stripTsig r }
        let res := if rcode = RcodeSuccess then NextOrFailure t.Name t.Next w.toWriter s
                   else ((rcode, none), s)
        let rcode := res.1.1
        let s := res.2
        let s := if !ClientWrite rcode then (w.WriteMsg (Msg.SetRcode {} s.req rcode) s).2 else s
        some ((RcodeSuccess, none), s)

/-! ## Notions the properties are stated with -/

/-- The world in which a failed verification is answered: the store to
`tsigRR.Error` shows in the last additional record of the request. -/
def failedWorld (s : World) (q : TSIG) (err : GoError) : World :=
  { s with req := { s.req with
      Extra := s.req.Extra.dropLast ++ [.tsig { q with Error := tsigErrorCode err }] } }

/-- The request's TSIG record after the store of lines 55 to 65. -/
def markedTSIG (q : TSIG) (err : GoError) : TSIG := { q with Error := tsigErrorCode err }

/-- The response to a failed verification as the decorator hands it to the
embedded writer (lines 66 and 67). -/
def failureResponse (s : World) (q : TSIG) (err : GoError) : Msg :=
  restoreTsigWriter.message (some (markedTSIG q err))
    (Msg.SetRcode {} (failedWorld s q err).req RcodeNotAuth) (failedWorld s q err)

/-- The handler `ServeDNS` answers on its own: whatever the writer (with the verification
status `status`) and whatever the next handler, all it does in the world `s` is
to hand the one message `resp` to the writer, in the world `s'`, and it
returns `(RcodeSuccess, nil)`. -/
def AnswersWith (t : TSIGServer) (status : Option GoError) (s : World) (resp : Msg)
    (s' : World) : Prop :=
  ∀ (w : ResponseWriter) (next : Option Handler), w.TsigStatus = status →
    TSIGServer.ServeDNS { t with Next := next } w s =
      some ((RcodeSuccess, none), (w.WriteMsg resp s').2)

/-- The number a list of bytes stands for in network byte order. -/
def bigEndianValue (b : List Nat) : Nat := b.foldl (fun acc x => acc * 256 + x) 0

/-! ## A concrete server and request -/

def exampleKey : TSIG :=
  { Hdr := { Name := "k1.", Rrtype := 250, Class := 255 }, Algorithm := "hmac-sha256.",
    TimeSigned := 1700000000, Fudge := 300, MACSize := 2, MAC := "abcd", OrigId := 7 }

def exampleOPT : OPT := { Hdr := { Name := ".", Rrtype := 41, Class := 4096 } }

def exampleQuestion : Question := { Name := "www.Example.ORG.", Qtype := 1, Qclass := 1 }

/-- A signed query: an OPT record and, last, the TSIG record. -/
def signedRequest : Msg :=
  { Id := 7, RecursionDesired := true, Question := [exampleQuestion],
    Extra := [.opt exampleOPT, .tsig exampleKey] }

/-- The same query without a TSIG record. -/
def plainRequest : Msg :=
  { Id := 7, RecursionDesired := true, Question := [exampleQuestion],
    Extra := [.opt exampleOPT] }

def signedWorld : World := { req := signedRequest, now := 1700000123 }

def plainWorld : World := { req := plainRequest, now := 1700000123 }

/-- A server for `example.org.` that requires a TSIG record with every query. -/
def exampleServer : TSIGServer :=
  { Zones := ["example.org."], secrets := [("k1.", "abc")], types := [], all := true,
    Next := none }

/-- A next handler that answers the request with a reply and reports
success. -/
def replyingHandler : Handler :=
  fun w s => ((RcodeSuccess, none), (w.WriteMsg (Msg.SetReply {} s.req) s).2)

/-- A next handler that writes nothing and reports a server failure. -/
def failingHandler : Handler :=
  fun _ s => ((RcodeServerFailure, some (GoError.other "no upstream")), s)

/-- A server for `example.org.` that requires a TSIG record for zone
transfers (type 252) only. -/
def exemptServer : TSIGServer :=
  { Zones := ["example.org."], secrets := [("k1.", "abc")], types := [252], all := false,
    Next := some replyingHandler }

/-- The example server in front of the failing handler. -/
def failingServer : TSIGServer := { exampleServer with Next := some failingHandler }

/-- The writer of a connection on which no verification error is reported. -/
def plainConn : ResponseWriter := connWriter none (fun _ => none)

/-- A reply the next handler has signed itself: its only additional record is
a TSIG record, and it has no OPT record. -/
def upstreamKey : TSIG :=
  { Hdr := { Name := "k1.", Rrtype := 250, Class := 255 }, Algorithm := "hmac-sha256.",
    TimeSigned := 1700000001, Fudge := 300, MACSize := 2, MAC := "ef01", OrigId := 7 }

def signedReply : Msg :=
  { Id := 7, Response := true, Question := [exampleQuestion], Extra := [.tsig upstreamKey] }

/-- The world the next handler runs in for the signed example request: the
TSIG record is cut off, the OPT record is left. -/
def strippedWorld : World := { req := stripTsig signedRequest, now := 1700000123 }

/-- A next handler that writes nothing and reports success together with an
error. -/
def erringHandler : Handler :=
  fun _ s => ((RcodeSuccess, some (GoError.other "backend error")), s)

/-- The example server in front of the erring handler. -/
def erringServer : TSIGServer := { exampleServer with Next := some erringHandler }

end Tsig

namespace TransferPlugin

/-! ## Transfer plugin setup: a shallow embedding of `plugin/transfer/setup.go`

The configuration the `caddy.Controller` dispenses is taken as already split
into directives, block lines and arguments.  The functions of Go's standard
library that decide what a token is are parameters. -/

/-- An IP network `net.IPNet`: address and mask, as bytes. -/
structure IPNet where
  IP : List Nat
  Mask : List Nat
  deriving DecidableEq, Repr

/-- Functions the setup calls that are not among the sources, taken as
parameters: from Go's standard library `net.ParseCIDR` (the network, or an
error), `net.SplitHostPort` (host and port, or an error), `net.ParseIP`
(whether the text is an IP address) and the verb `%q` of `fmt`; from the
repository `plugin.OriginsFromArgsOrServerBlock`. -/
structure Lib where
  ParseCIDR : String → Option IPNet
  SplitHostPort : String → Option (String × String)
  ParseIP : String → Bool
  Quote : String → String
  OriginsFromArgsOrServerBlock : List String → List String → List String

/-- The function `net.JoinHostPort`: a host with a colon is put in brackets. -/
def JoinHostPort (host port : String) : String :=
  if ':' ∈ host.data then "[" ++ host ++ "]:" ++ port else host ++ ":" ++ port

/-- Modelled from the spec: the constant `transport.Port` is not among the
sources; it is "the protocol's default transport port". -/
def transportPort : String := "53"

/-- Modelled from the spec: `parse.HostPort` is not among the sources.  The
token grammar is "bare IP, `IP:port`", with the "default transport port
substituted when omitted": the normalized `IP:port`, or an error (here
`none`, its text is not used) when the host part is not an IP address. -/
def HostPort (lib : Lib) (s defaultPort : String) : Option String :=
  match lib.SplitHostPort s with
  | none => if lib.ParseIP s then some (JoinHostPort s defaultPort) else none
  | some (addr, port) =>
    let port := if port = "" then defaultPort else port
    if lib.ParseIP addr then some (JoinHostPort addr port) else none

/-- Modelled from the spec: `plugin.Error` is not among the sources; it
returns the error under the name of the plugin. -/
def pluginError (name err : String) : String := "plugin/" ++ name ++ ": " ++ err

/-- One line of a block as the controller dispenses it: the property `val`,
the remaining arguments of the line, and the position (file and line) that
the controller puts in front of an error. -/
structure Line where
  val : String
  args : List String
  pos : String
  deriving DecidableEq, Repr

/-- One occurrence of the directive: its arguments, the lines of its block,
and the position of the controller after the block. -/
structure Directive where
  args : List String
  block : List Line
  endPos : String
  deriving DecidableEq, Repr

/-- What the `caddy.Controller` holds for the plugin. -/
structure Controller where
  ServerBlockKeys : List String
  directives : List Directive
  deriving DecidableEq, Repr

/-- The method `Err` of the controller: the message behind the position. -/
def Err (pos msg : String) : String := pos ++ " - Error during parsing: " ++ msg

/-- The method `ArgErr` of the controller, standing on the token `val`. -/
def ArgErr (pos val : String) : String :=
  Err pos ("Wrong argument count or unexpected line ending after '" ++ val ++ "'")

/-- The rule `xfr` of one directive. -/
structure xfr where
  Zones : List String := []
  «to» : List String := []
  toNet : List IPNet := []
  deriving DecidableEq, Repr

/-- A handler of the server, as far as the setup looks at it: its name and
whether its type implements the interface `Transferer`. -/
structure PluginHandler where
  Name : String
  transferer : Bool
  deriving DecidableEq, Repr

/-- The plugin `Transfer`. -/
structure Transfer where
  Transferers : List PluginHandler := []
  xfrs : List xfr := []
  Next : Option PluginHandler := none
  deriving DecidableEq, Repr

/-- The body of the loop over the arguments of `to` (lines 61 to 74). -/
def toHost (lib : Lib) (x : xfr) (pos host : String) : Except String xfr :=
  if host = "*" then .ok { x with «to» := x.«to» ++ [host] }
  else
    match lib.ParseCIDR host with
    | some net => .ok { x with toNet := x.toNet ++ [net] }
    | none =>
      match HostPort lib host transportPort with
      | none => .error (pluginError "transfer"
          (Err pos ("to must be a '*', IP:Port, IP, or CIDR: " ++ lib.Quote host)))
      | some normalized => .ok { x with «to» := x.«to» ++ [normalized] }

/-- The loop over the arguments of `to` (line 60). -/
def toArgs (lib : Lib) (x : xfr) (pos : String) : List String → Except String xfr
  | [] => .ok x
  | host :: rest =>
    match toHost lib x pos host with
    | .error e => .error e
    | .ok x => toArgs lib x pos rest

/-- The body of the loop over the block (lines 54 to 78). -/
def blockLine (lib : Lib) (x : xfr) (l : Line) : Except String xfr :=
  if l.val = "to" then
    if l.args.length = 0 then .error (ArgErr l.pos l.val)
    else toArgs lib x l.pos l.args
  else .error (pluginError "transfer" (Err l.pos ("unknown property " ++ lib.Quote l.val)))

/-- The loop over the block (line 53). -/
def blockLines (lib : Lib) (x : xfr) : List Line → Except String xfr
  | [] => .ok x
  | l :: rest =>
    match blockLine lib x l with
    | .error e => .error e
    | .ok x => blockLines lib x rest

/-- The rule of one directive (lines 51 to 82). -/
def parseXfr (lib : Lib) (keys : List String) (d : Directive) : Except String xfr :=
  let x : xfr := {}
  let x := { x with Zones := lib.OriginsFromArgsOrServerBlock d.args keys }
  match blockLines lib x d.block with
  | .error e => .error e
  | .ok x =>
    if x.«to».length = 0 then .error (pluginError "transfer" (Err d.endPos "'to' is required"))
    else .ok x

/-- The loop over the directives (line 50). -/
def parseDirectives (lib : Lib) (keys : List String) (t : Transfer) :
    List Directive → Except String Transfer
  | [] => .ok t
  | d :: rest =>
    match parseXfr lib keys d with
    | .error e => .error e
    | .ok x => parseDirectives lib keys { t with xfrs := t.xfrs ++ [x] } rest

/-- The function `parseTransfer` (lines 48 to 86). -/
def parseTransfer (lib : Lib) (c : Controller) : Except String Transfer :=
  parseDirectives lib c.ServerBlockKeys {} c.directives

/-- The startup hook `setup` registers (lines 32 to 43): `plugins` are the
handlers of the server. -/
def onStartup (plugins : List PluginHandler) (t : Transfer) : Transfer :=
  plugins.foldl (fun t pl =>
    if pl.transferer then { t with Transferers := t.Transferers ++ [pl] } else t) t

/-- The function `setup` (lines 20 to 46): the plugin it adds to the server,
whose startup hook is `onStartup`, or the error it returns. -/
def setup (lib : Lib) (c : Controller) : Except String Transfer :=
  match parseTransfer lib c with
  | .error e => .error (pluginError "transfer" e)
  | .ok t => .ok t

/-- A token the setup accepts: the wildcard, a network, or a host. -/
def validToken (lib : Lib) (host : String) : Prop :=
  host = "*" ∨ (lib.ParseCIDR host).isSome = true ∨
    (HostPort lib host transportPort).isSome = true

/-! ## A concrete configuration -/

/-- A library for the examples: of all texts it knows the network
`10.0.0.0/24`, the address `10.0.0.5` and the address with port
`10.0.0.5:5353`, as Go's does. -/
def exampleLib : Lib :=
  { ParseCIDR := fun s =>
      if s = "10.0.0.0/24" then some ⟨[10, 0, 0, 0], [255, 255, 255, 0]⟩ else none
    SplitHostPort := fun s => if s = "10.0.0.5:5353" then some ("10.0.0.5", "5353") else none
    ParseIP := fun s => s = "10.0.0.5"
    Quote := fun s => "\"" ++ s ++ "\""
    OriginsFromArgsOrServerBlock := fun args keys => if args = [] then keys else args }

/-- The block `transfer example.org. { to 10.0.0.0/24 }`. -/
def cidrOnly : Controller :=
  { ServerBlockKeys := ["example.org."]
    directives := [{ args := [], endPos := "Corefile:4"
                     block := [{ val := "to", args := ["10.0.0.0/24"], pos := "Corefile:3" }] }] }

/-- The block `transfer example.org. { to * 10.0.0.5 10.0.0.0/24 }`. -/
def mixedList : Controller :=
  { ServerBlockKeys := ["example.org."]
    directives := [{ args := [], endPos := "Corefile:4"
                     block := [{ val := "to", args := ["*", "10.0.0.5", "10.0.0.0/24"],
                                 pos := "Corefile:3" }] }] }

/-- The block `transfer example.org. { to * example.net }`, whose second token
is no address. -/
def badToken : Controller :=
  { ServerBlockKeys := ["example.org."]
    directives := [{ args := [], endPos := "Corefile:4"
                     block := [{ val := "to", args := ["*", "example.net"],
                                 pos := "Corefile:3" }] }] }

/-- The directive `transfer example.org.` without a block. -/
def noBlock : Directive := { args := ["example.org."], block := [], endPos := "Corefile:2" }

/-- The handlers of a server: `file` and `secondary` can supply transfer data. -/
def examplePlugins : List PluginHandler :=
  [{ Name := "file", transferer := true }, { Name := "cache", transferer := false },
   { Name := "secondary", transferer := true }]

end TransferPlugin

namespace DirectivesGenerate

/-! ## The generator of the directive list: a shallow embedding of `directives_generate.go`

The lines of `plugin.cfg`, the map `externalPlugins` builds from the
environment and the module cache, and the test `os.Stat` makes on the file
system are inputs; `log.Fatalf` is the result `Except.error` with the text
logged. -/

/-- The placement `extPlugInsert` of an external plugin. -/
structure extPlugInsert where
  after : Bool
  name : String
  repo : String
  deriving DecidableEq, Repr

def pluginPath : String := "github.com/coredns/coredns/plugin/"

def pluginFSPath : String := "plugin/"

def header : String := "// generated by directives_generate.go; DO NOT EDIT\n\n"

/-- What the generator takes from outside: the map `extPlugInserts` that
`externalPlugins` returns, keyed by landmark; whether `os.Stat` finds a path;
the verb `%q` of `log.Fatalf`. -/
structure Env where
  extPlugInserts : String → Option extPlugInsert
  statOK : String → Bool
  Quote : String → String

/-- A Go `map[string]string` as a list of keys with their values. -/
abbrev StringMap : Type := List (String × String)

/-- The test `_, ok := m[k]`. -/
def StringMap.has (m : StringMap) (k : String) : Bool := m.any (fun e => e.1 = k)

/-- The store `m[k] = v`. -/
def StringMap.set (m : StringMap) (k v : String) : StringMap :=
  if m.has k then m.map (fun e => if e.1 = k then (k, v) else e) else m ++ [(k, v)]

/-- The function `strings.Split` on one separator character: the pieces
between the separators, one more than there are separators. -/
def splitOn (sep : Char) : List Char → List (List Char)
  | [] => [[]]
  | c :: cs =>
    if c = sep then [] :: splitOn sep cs
    else
      match splitOn sep cs with
      | [] => [[c]]
      | h :: t => (c :: h) :: t

/-- The function `addPlugin` (lines 60 to 72). -/
def addPlugin (env : Env) (mi : StringMap) (md : List String) (name repo : String) :
    Except String (StringMap × List String) :=
  if mi.has name then .error ("Duplicate entry " ++ env.Quote name)
  else
    let md := md ++ [name]
    let mi := mi.set name (pluginPath ++ repo)
    let mi := if !env.statOK (pluginFSPath ++ repo) then mi.set name repo else mi
    .ok (mi, md)

/-- The body of the loop of `main` over the lines of `plugin.cfg` (lines 33
to 53). -/
def processLine (env : Env) (mi : StringMap) (md : List String) (line : String) :
    Except String (StringMap × List String) :=
  if line.data.head? = some '#' then .ok (mi, md)
  else
    match splitOn ':' line.data with
    | [name, repo] =>
      let name := String.mk name
      let repo := String.mk repo
      match env.extPlugInserts name with
      | some insert =>
        if insert.after then
          match addPlugin env mi md name repo with
          | .error e => .error e
          | .ok (mi, md) => addPlugin env mi md insert.name insert.repo
        else
          match addPlugin env mi md insert.name insert.repo with
          | .error e => .error e
          | .ok (mi, md) => addPlugin env mi md name repo
      | none => addPlugin env mi md name repo
    | _ => .ok (mi, md)

/-- The loop of `main` over the lines the scanner yields (line 32). -/
def mainLoop (env : Env) (mi : StringMap) (md : List String) :
    List String → Except String (StringMap × List String)
  | [] => .ok (mi, md)
  | line :: rest =>
    match processLine env mi md line with
    | .error e => .error e
    | .ok (mi, md) => mainLoop env mi md rest

/-- The text `genDirectives` starts with, up to the opening of the list
(lines 94 to 104). -/
def directivesHead (pack : String) : String :=
  let outs := header ++ "package " ++ pack ++ "\n\n"
  outs ++ ("\n// Directives are registered in the order they should be\n" ++
    "// executed.\n" ++
    "//\n" ++
    "// Ordering is VERY important. Every plugin will\n" ++
    "// feel the effects of all other plugin below\n" ++
    "// (after) them during a request, but they must not\n" ++
    "// care what plugin above them are doing.\n" ++
    "var Directives = []string\x7b\n")

/-- The text `genDirectives` hands to `formatAndWrite` (lines 94 to 110). -/
def genDirectives (pack : String) (md : List String) : String :=
  let outs := directivesHead pack
  let outs := md.foldl (fun outs name => outs ++ "\"" ++ name ++ "\"," ++ "\n") outs
  outs ++ "\x7d\n"

/-- The function `main` up to the directive list: the maps start empty, and
the result is the import map `mi` and the directive list `md` that
`genImports` and `genDirectives` are called with. -/
def main (env : Env) (lines : List String) : Except String (StringMap × List String) :=
  mainLoop env [] [] lines

/-! ## Notions the property is stated with -/

/-- The names a line of `plugin.cfg` contributes, in the words of the
property: nothing for a line that begins with `#` or does not split into
exactly two fields at `:`; else its name, with the external plugin whose
landmark it is right after it when the flag `after` is set, right before it
otherwise. -/
def contribution (env : Env) (line : String) : List String :=
  if line.data.head? = some '#' then []
  else
    match splitOn ':' line.data with
    | [name, _] =>
      match env.extPlugInserts (String.mk name) with
      | none => [String.mk name]
      | some insert =>
        if insert.after then [String.mk name, insert.name] else [insert.name, String.mk name]
    | _ => []

/-- The plugins a line adds, with their repositories, in the order of the
calls of `addPlugin`. -/
def linePlugins (env : Env) (line : String) : List (String × String) :=
  if line.data.head? = some '#' then []
  else
    match splitOn ':' line.data with
    | [name, repo] =>
      match env.extPlugInserts (String.mk name) with
      | none => [(String.mk name, String.mk repo)]
      | some insert =>
        if insert.after then [(String.mk name, String.mk repo), (insert.name, insert.repo)]
        else [(insert.name, insert.repo), (String.mk name, String.mk repo)]
    | _ => []

/-- A sequence of calls of `addPlugin`. -/
def addPlugins (env : Env) (mi : StringMap) (md : List String) :
    List (String × String) → Except String (StringMap × List String)
  | [] => .ok (mi, md)
  | (name, repo) :: rest =>
    match addPlugin env mi md name repo with
    | .error e => .error e
    | .ok (mi, md) => addPlugins env mi md rest

/-- The texts of a list one after the other. -/
def concat : List String → String
  | [] => ""
  | s :: rest => s ++ concat rest

/-- The invariant of the loop: the keys of the import map are the names of
the directive list. -/
def Inv (mi : StringMap) (md : List String) : Prop := ∀ n, mi.has n = true ↔ n ∈ md

/-! ## A concrete `plugin.cfg` -/

/-- An environment with one external plugin, `example`, to be placed right
after the landmark `cache`; every repository but its own is in the tree. -/
def exampleEnv : Env :=
  { extPlugInserts := fun n =>
      if n = "cache" then
        some { after := true, name := "example", repo := "github.com/org/example" }
      else none
    statOK := fun p => p ≠ "plugin/github.com/org/example"
    Quote := fun s => "\"" ++ s ++ "\"" }

def exampleCfg : List String :=
  ["# Directives are registered in the order they should be executed.", "",
   "tsig:tsig", "cache:cache", "transfer:transfer"]

end DirectivesGenerate

namespace Tsig

/-! ## Lemmas on the library functions and helpers -/

theorem SetRcode_Extra (r : Msg) (c : Int) : (Msg.SetRcode {} r c).Extra = [] := by
  unfold Msg.SetRcode Msg.SetReply
  simp only []
  split <;> split <;> rfl

theorem SetRcode_Id (r : Msg) (c : Int) : (Msg.SetRcode {} r c).Id = r.Id := by
  unfold Msg.SetRcode Msg.SetReply
  simp only []
  split <;> split <;> rfl

theorem SetRcode_Rcode (m r : Msg) (c : Int) : (Msg.SetRcode m r c).Rcode = c := rfl

theorem SizeAndDo_Id (req m : Msg) : (SizeAndDo req m).Id = m.Id := by
  unfold SizeAndDo
  split
  · rfl
  · split <;> rfl

theorem SizeAndDo_Rcode (req m : Msg) : (SizeAndDo req m).Rcode = m.Rcode := by
  unfold SizeAndDo
  split
  · rfl
  · split <;> rfl

theorem findOPT_Rrtype (l : List RR) (o : OPT) (h : findOPT l = some o) :
    o.Hdr.Rrtype = TypeOPT := by
  induction l with
  | nil => simp [findOPT] at h
  | cons rr rest ih =>
    cases rr with
    | tsig t => exact ih (by simpa [findOPT] using h)
    | other hdr d => exact ih (by simpa [findOPT] using h)
    | opt o' =>
      unfold findOPT at h
      split at h
      · rename_i ho
        simp at h
        subst h
        exact ho
      · exact ih h

/-- A response without additional records gets at most the request's OPT
record from `SizeAndDo`. -/
theorem SizeAndDo_Extra_nil (req m : Msg) (h : m.Extra = []) :
    (SizeAndDo req m).Extra = [] ∨
    ∃ o, o.Hdr.Rrtype = TypeOPT ∧ (SizeAndDo req m).Extra = [.opt o] := by
  unfold SizeAndDo
  split
  · exact Or.inl h
  · split
    · rename_i o mo hmo
      simp [Msg.IsEdns0, h, findOPT] at hmo
    · rename_i o ho _ _
      right
      refine ⟨{ o with Hdr := clearVersionAndFlags o.Hdr }, ?_, by simp [h]⟩
      exact findOPT_Rrtype _ o ho

theorem IsTsig_of_nil_or_opt (m : Msg)
    (h : m.Extra = [] ∨ ∃ o, o.Hdr.Rrtype = TypeOPT ∧ m.Extra = [.opt o]) :
    m.IsTsig = none := by
  rcases h with h | ⟨o, _, h⟩ <;> simp [Msg.IsTsig, h]

theorem IsTsig_append_tsig (m : Msg) (l : List RR) (t : TSIG) (h : m.Extra = l ++ [.tsig t])
    (ht : t.Hdr.Rrtype = TypeTSIG) : m.IsTsig = some t := by
  simp [Msg.IsTsig, h, ht]

theorem IsTsig_eq_some (m : Msg) (t : TSIG) (h : m.IsTsig = some t) :
    m.Extra = m.Extra.dropLast ++ [.tsig t] ∧ t.Hdr.Rrtype = TypeTSIG := by
  unfold Msg.IsTsig at h
  split at h
  · rename_i t' hl
    split at h
    · rename_i ht
      simp at h
      subst h
      exact ⟨(List.dropLast_append_getLast? _ hl).symm, ht⟩
    · simp at h
  · simp at h

theorem mapFirstOPT_head (f : OPT → OPT) (l : List RR)
    (h : ∀ q, l.head? = some (.tsig q) → q.Hdr.Rrtype ≠ TypeTSIG) :
    ∀ q, (mapFirstOPT f l).head? = some (.tsig q) → q.Hdr.Rrtype ≠ TypeTSIG := by
  intro q hq
  cases l with
  | nil => simp [mapFirstOPT] at hq
  | cons rr rest =>
    cases rr with
    | tsig t =>
      simp [mapFirstOPT] at hq
      exact h q (by simp [hq])
    | other hdr d => simp [mapFirstOPT] at hq
    | opt o =>
      unfold mapFirstOPT at hq
      split at hq <;> simp at hq

theorem IsTsig_none_iff (m : Msg) :
    m.IsTsig = none ↔
      ∀ q, m.Extra.reverse.head? = some (.tsig q) → q.Hdr.Rrtype ≠ TypeTSIG := by
  unfold Msg.IsTsig
  rw [List.head?_reverse]
  constructor
  · intro h q hq
    rw [hq] at h
    simpa using h
  · intro h
    split
    · rename_i t ht
      simp [h t ht]
    · rfl

/-- The helper `SizeAndDo` does not make a message end with a TSIG record. -/
theorem SizeAndDo_IsTsig_none (req m : Msg) (h : m.IsTsig = none) :
    (SizeAndDo req m).IsTsig = none := by
  unfold SizeAndDo
  split
  · exact h
  · split
    · rw [IsTsig_none_iff] at h ⊢
      simp only [List.reverse_reverse]
      exact mapFirstOPT_head _ _ h
    · simp [Msg.IsTsig]

/-! ## Lemmas on `restoreTsigWriter.WriteMsg` -/

theorem newTSIG_Hdr (q : TSIG) (m : Msg) (now : Int) :
    (restoreTsigWriter.newTSIG q m now).Hdr =
      { Name := q.Hdr.Name, Rrtype := TypeTSIG, Class := ClassANY } := by
  unfold restoreTsigWriter.newTSIG
  simp only []
  split <;> split <;> rfl

theorem newTSIG_Algorithm (q : TSIG) (m : Msg) (now : Int) :
    (restoreTsigWriter.newTSIG q m now).Algorithm = q.Algorithm := by
  unfold restoreTsigWriter.newTSIG
  simp only []
  split <;> split <;> rfl

theorem newTSIG_OrigId (q : TSIG) (m : Msg) (now : Int) :
    (restoreTsigWriter.newTSIG q m now).OrigId = m.Id := by
  unfold restoreTsigWriter.newTSIG
  simp only []
  split <;> split <;> rfl

theorem newTSIG_cleared (q : TSIG) (m : Msg) (now : Int) (h0 : q.Error > 0)
    (h1 : q.Error ≠ RcodeBadTime) :
    (restoreTsigWriter.newTSIG q m now).Error = q.Error ∧
    (restoreTsigWriter.newTSIG q m now).MAC = "" ∧
    (restoreTsigWriter.newTSIG q m now).MACSize = 0 := by
  unfold restoreTsigWriter.newTSIG
  simp [h0, h1]

theorem newTSIG_badtime (q : TSIG) (m : Msg) (now : Int) (h : q.Error = RcodeBadTime) :
    (restoreTsigWriter.newTSIG q m now).Error = RcodeBadTime ∧
    (restoreTsigWriter.newTSIG q m now).MAC = q.MAC ∧
    (restoreTsigWriter.newTSIG q m now).MACSize = q.MACSize ∧
    (restoreTsigWriter.newTSIG q m now).TimeSigned = q.TimeSigned ∧
    (restoreTsigWriter.newTSIG q m now).OtherLen = 6 ∧
    (restoreTsigWriter.newTSIG q m now).OtherData =
      hexEncode ((PutUint64 (uint64 now)).drop 2) := by
  unfold restoreTsigWriter.newTSIG
  simp [h]

/-- The six bytes the writer encodes are the low-order 48 bits of the time. -/
theorem time_bytes (now : Int) :
    ((PutUint64 (uint64 now)).drop 2).length = 6 ∧
    (∀ b ∈ (PutUint64 (uint64 now)).drop 2, b < 256) ∧
    bigEndianValue ((PutUint64 (uint64 now)).drop 2) = (now % 2 ^ 48).toNat := by
  refine ⟨rfl, ?_, ?_⟩
  · intro b hb
    simp [PutUint64] at hb
    omega
  · simp only [PutUint64, List.drop, bigEndianValue, List.foldl, uint64]
    norm_num
    omega

theorem message_Id (q : Option TSIG) (m : Msg) (s : World) :
    (restoreTsigWriter.message q m s).Id = m.Id := by
  unfold restoreTsigWriter.message
  simp only []
  split <;> simp [SizeAndDo_Id]

theorem message_Rcode (q : Option TSIG) (m : Msg) (s : World) :
    (restoreTsigWriter.message q m s).Rcode = m.Rcode := by
  unfold restoreTsigWriter.message
  simp only []
  split <;> simp [SizeAndDo_Rcode]

/-- A message written without additional records, for a request that came
with a TSIG record, leaves with a new TSIG record as its last record. -/
theorem message_of_empty (q : TSIG) (m : Msg) (s : World) (h : m.Extra = []) :
    (restoreTsigWriter.message (some q) m s).Extra =
      (SizeAndDo s.req m).Extra ++
        [.tsig (restoreTsigWriter.newTSIG q (SizeAndDo s.req m) s.now)] := by
  have hn := IsTsig_of_nil_or_opt _ (SizeAndDo_Extra_nil s.req m h)
  unfold restoreTsigWriter.message
  simp [hn]

theorem message_none (m : Msg) (s : World) :
    restoreTsigWriter.message none m s = SizeAndDo s.req m := by
  unfold restoreTsigWriter.message
  simp

/-- What `WriteMsg` does to the additional section: it appends the new TSIG
record exactly when the request came with one and the message, after
`SizeAndDo`, does not end with one. -/
theorem message_cases (q : Option TSIG) (m : Msg) (s : World) :
    (∃ k, q = some k ∧ (SizeAndDo s.req m).IsTsig = none ∧
      restoreTsigWriter.message q m s = { SizeAndDo s.req m with
        Extra := (SizeAndDo s.req m).Extra ++
          [.tsig (restoreTsigWriter.newTSIG k (SizeAndDo s.req m) s.now)] }) ∨
    ((q = none ∨ (SizeAndDo s.req m).IsTsig ≠ none) ∧
      restoreTsigWriter.message q m s = SizeAndDo s.req m) := by
  unfold restoreTsigWriter.message
  cases q with
  | none => right; simp
  | some k =>
    cases h : (SizeAndDo s.req m).IsTsig with
    | none => left; exact ⟨k, rfl, rfl, by simp [h]⟩
    | some r => right; simp [h]

/-- A message that does not end with a TSIG record, written for a request
that came with one, leaves with the new record appended. -/
theorem message_append (k : TSIG) (m : Msg) (s : World) (h : m.IsTsig = none) :
    (restoreTsigWriter.message (some k) m s).Extra = (SizeAndDo s.req m).Extra ++
      [.tsig (restoreTsigWriter.newTSIG k (SizeAndDo s.req m) s.now)] := by
  have hn := SizeAndDo_IsTsig_none s.req m h
  unfold restoreTsigWriter.message
  simp [hn]

/-! ## The paths through `TSIGServer.ServeDNS` -/

theorem ServeDNS_failed (t : TSIGServer) (w : ResponseWriter) (s : World) (q : TSIG)
    (err : GoError) (hzone : Zones.Matches t.Zones (Request.Name s.req) ≠ "")
    (htsig : s.req.IsTsig = some q) (hst : w.TsigStatus = some err) :
    t.ServeDNS w s = some ((RcodeSuccess, none),
      (w.WriteMsg (failureResponse s q err) (failedWorld s q err)).2) := by
  unfold TSIGServer.ServeDNS
  simp [hzone, htsig, hst, restoreTsigWriter.WriteMsg, failedWorld, failureResponse, markedTSIG]

theorem ServeDNS_missing (t : TSIGServer) (w : ResponseWriter) (s : World)
    (hzone : Zones.Matches t.Zones (Request.Name s.req) ≠ "")
    (hreq : t.tsigRequired (Request.QType s.req) = true)
    (htsig : s.req.IsTsig = none) (hst : w.TsigStatus = none) :
    t.ServeDNS w s = some ((RcodeSuccess, none),
      (w.WriteMsg (restoreTsigWriter.message none
        (Msg.SetRcode {} (stripTsig s.req) RcodeRefused) { s with req := stripTsig s.req })
        { s with req := stripTsig s.req }).2) := by
  unfold TSIGServer.ServeDNS
  simp [hzone, htsig, hst, hreq, restoreTsigWriter.WriteMsg, RcodeRefused, RcodeSuccess,
    ClientWrite, RcodeServerFailure]

theorem ServeDNS_verified (t : TSIGServer) (w : ResponseWriter) (s : World) (q : TSIG)
    (hzone : Zones.Matches t.Zones (Request.Name s.req) ≠ "")
    (htsig : s.req.IsTsig = some q) (hst : w.TsigStatus = none) :
    t.ServeDNS w s = some ((RcodeSuccess, none),
      let d : restoreTsigWriter := { ResponseWriter := w, reqTSIG := some q }
      let res := NextOrFailure t.Name t.Next d.toWriter { s with req := stripTsig s.req }
      if ClientWrite res.1.1 then res.2
      else (d.WriteMsg (Msg.SetRcode {} res.2.req res.1.1) res.2).2) := by
  unfold TSIGServer.ServeDNS
  simp [hzone, htsig, hst]
  split <;> simp_all

theorem tsigErrorCode_pos (err : GoError) : tsigErrorCode err > 0 := by
  cases err <;> simp [tsigErrorCode, RcodeBadKey, RcodeBadTime, RcodeBadSig]

/-- The response to a failed verification, as it leaves: it ends with the
TSIG record built from the request's record with the error code stored. -/
theorem failureResponse_Extra (s : World) (q : TSIG) (err : GoError) :
    ∃ l m, (failureResponse s q err).Extra =
      l ++ [.tsig (restoreTsigWriter.newTSIG (markedTSIG q err) m s.now)] ∧
      m.Id = s.req.Id :=
  ⟨_, _, message_of_empty _ _ _ (SetRcode_Extra _ _), by
    rw [SizeAndDo_Id, SetRcode_Id]; rfl⟩

theorem stripTsig_eq (r : Msg) : stripTsig r = { r with Extra := r.Extra.dropLast } := by
  unfold stripTsig
  split
  · rw [List.dropLast_eq_take]
  · rename_i h
    have h1 : r.Extra.dropLast = [] := by
      apply List.eq_nil_of_length_eq_zero
      rw [List.length_dropLast]
      omega
    rw [h1]

theorem tsigRequired_iff (t : TSIGServer) (qtype : Nat) :
    t.tsigRequired qtype = true ↔ (t.all = true ∨ qtype ∈ t.types) := by
  unfold TSIGServer.tsigRequired
  by_cases h1 : t.all = true <;> by_cases h2 : qtype ∈ t.types <;> simp [h1, h2]

theorem ServeDNS_unmatched (t : TSIGServer) (w : ResponseWriter) (s : World)
    (hzone : Zones.Matches t.Zones (Request.Name s.req) = "") :
    t.ServeDNS w s = some (NextOrFailure t.Name t.Next w s) := by
  unfold TSIGServer.ServeDNS
  simp [hzone]

theorem ServeDNS_exempt (t : TSIGServer) (w : ResponseWriter) (s : World)
    (hreq : t.tsigRequired (Request.QType s.req) = false) (htsig : s.req.IsTsig = none) :
    t.ServeDNS w s = some (NextOrFailure t.Name t.Next w s) := by
  unfold TSIGServer.ServeDNS
  simp [hreq, htsig]

theorem failedWorld_IsEdns0 (s : World) (q : TSIG) (err : GoError)
    (htsig : s.req.IsTsig = some q) :
    (failedWorld s q err).req.IsEdns0 = s.req.IsEdns0 := by
  obtain ⟨hx, _⟩ := IsTsig_eq_some _ _ htsig
  unfold Msg.IsEdns0
  conv_rhs => rw [hx]
  simp [failedWorld, findOPT]

/-- A response synthesized for a request that has an OPT record and came with
a TSIG record leaves with the OPT record first and the TSIG record last. -/
theorem message_synth_opt (q : TSIG) (m : Msg) (s : World) (o : OPT) (h : m.Extra = [])
    (ho : s.req.IsEdns0 = some o) :
    (restoreTsigWriter.message (some q) m s).Extra =
      [.opt { o with Hdr := clearVersionAndFlags o.Hdr },
       .tsig (restoreTsigWriter.newTSIG q (SizeAndDo s.req m) s.now)] := by
  rw [message_of_empty q m s h]
  have : (SizeAndDo s.req m).Extra = [.opt { o with Hdr := clearVersionAndFlags o.Hdr }] := by
    have hm : m.IsEdns0 = none := by simp [Msg.IsEdns0, h, findOPT]
    unfold SizeAndDo
    rw [ho]
    simp [hm, h]
  rw [this]
  rfl

/-- The handler panics in one situation only: the verification-failure branch
is entered for a request without a TSIG record. -/
theorem ServeDNS_panics_iff (t : TSIGServer) (w : ResponseWriter) (s : World) :
    t.ServeDNS w s = none ↔
      (Zones.Matches t.Zones (Request.Name s.req) ≠ "" ∧
       t.tsigRequired (Request.QType s.req) = true ∧
       s.req.IsTsig = none ∧ w.TsigStatus ≠ none) := by
  unfold TSIGServer.ServeDNS
  by_cases hz : Zones.Matches t.Zones (Request.Name s.req) = ""
  · simp [hz]
  · cases hq : s.req.IsTsig with
    | some q =>
      cases hst : w.TsigStatus <;> simp [hz, hq, hst]
    | none =>
      cases hr : t.tsigRequired (Request.QType s.req) <;>
        cases hst : w.TsigStatus <;> simp [hz, hq, hst, hr]

/-! ## The properties -/

/-- C1: for a request in a configured zone whose last additional record is a
TSIG record, when the writer's TsigStatus is the unknown-key error the one
response ServeDNS writes leaves with a trailing TSIG record whose Error is
BadKey, and when it is any error other than the unknown-key and the time
error that Error is BadSig; in both cases the MAC is empty and MACSize is 0. -/
theorem bad_key_and_bad_sig_response (t : TSIGServer) (s : World) (q : TSIG) (err : GoError)
    (hzone : Zones.Matches t.Zones (Request.Name s.req) ≠ "")
    (htsig : s.req.IsTsig = some q) (herr : err ≠ GoError.ErrTime) :
    ∃ (resp : Msg) (s' : World) (rep : TSIG),
      AnswersWith t (some err) s resp s' ∧
      resp.Extra.getLast? = some (.tsig rep) ∧ resp.IsTsig = some rep ∧
      (err = GoError.ErrSecret → rep.Error = RcodeBadKey) ∧
      (err ≠ GoError.ErrSecret → rep.Error = RcodeBadSig) ∧
      rep.MAC = "" ∧ rep.MACSize = 0 := by
  obtain ⟨l, m, hl, _⟩ := failureResponse_Extra s q err
  have hne : tsigErrorCode err ≠ RcodeBadTime := by
    cases err <;> simp [tsigErrorCode, RcodeBadKey, RcodeBadTime, RcodeBadSig] at herr ⊢
  obtain ⟨he, hmac, hsize⟩ := newTSIG_cleared (markedTSIG q err) m s.now
    (tsigErrorCode_pos err) hne
  refine ⟨failureResponse s q err, failedWorld s q err,
    restoreTsigWriter.newTSIG (markedTSIG q err) m s.now, ?_, ?_, ?_, ?_, ?_, hmac, hsize⟩
  · intro w next hst
    exact ServeDNS_failed { t with Next := next } w s q err hzone htsig hst
  · rw [hl]; simp
  · exact IsTsig_append_tsig _ _ _ hl (by rw [newTSIG_Hdr])
  · intro h; rw [he, h]; rfl
  · intro h; rw [he]; cases err <;> simp_all [tsigErrorCode, markedTSIG]

theorem bad_key_and_bad_sig_response_witness :
    Zones.Matches exampleServer.Zones (Request.Name signedWorld.req) ≠ "" ∧
    signedWorld.req.IsTsig = some exampleKey ∧
    ∃ (resp : Msg) (s' : World) (rep : TSIG),
      AnswersWith exampleServer (some GoError.ErrSecret) signedWorld resp s' ∧
      resp.Extra.getLast? = some (.tsig rep) ∧ resp.IsTsig = some rep ∧
      (GoError.ErrSecret = GoError.ErrSecret → rep.Error = RcodeBadKey) ∧
      (GoError.ErrSecret ≠ GoError.ErrSecret → rep.Error = RcodeBadSig) ∧
      rep.MAC = "" ∧ rep.MACSize = 0 :=
  ⟨by decide, by decide,
   bad_key_and_bad_sig_response exampleServer signedWorld exampleKey GoError.ErrSecret
     (by decide) (by decide) (by decide)⟩

/-- C2: for a request in a configured zone whose TSIG record fails
verification with the time error, and for every current time, the one response
ServeDNS writes leaves with a trailing TSIG record that has Error BadTime, the
request record's MAC, MACSize and TimeSigned, OtherLen 6, and as OtherData the
hex encoding of six bytes that are the big-endian form of the time modulo
2^48. -/
theorem bad_time_response (t : TSIGServer) (s : World) (q : TSIG)
    (hzone : Zones.Matches t.Zones (Request.Name s.req) ≠ "")
    (htsig : s.req.IsTsig = some q) :
    ∃ (resp : Msg) (s' : World) (rep : TSIG) (b : List Nat),
      AnswersWith t (some GoError.ErrTime) s resp s' ∧
      resp.Extra.getLast? = some (.tsig rep) ∧ resp.IsTsig = some rep ∧
      rep.Error = RcodeBadTime ∧ rep.MAC = q.MAC ∧ rep.MACSize = q.MACSize ∧
      rep.TimeSigned = q.TimeSigned ∧ rep.OtherLen = 6 ∧
      rep.OtherData = hexEncode b ∧ b.length = 6 ∧ (∀ x ∈ b, x < 256) ∧
      bigEndianValue b = (s.now % 2 ^ 48).toNat := by
  obtain ⟨l, m, hl, _⟩ := failureResponse_Extra s q GoError.ErrTime
  obtain ⟨he, hmac, hsize, htime, hlen, hdata⟩ :=
    newTSIG_badtime (markedTSIG q GoError.ErrTime) m s.now rfl
  obtain ⟨hb6, hb256, hbval⟩ := time_bytes s.now
  refine ⟨failureResponse s q GoError.ErrTime, failedWorld s q GoError.ErrTime,
    restoreTsigWriter.newTSIG (markedTSIG q GoError.ErrTime) m s.now,
    (PutUint64 (uint64 s.now)).drop 2, ?_, ?_, ?_, he, hmac, hsize, htime, hlen, hdata,
    hb6, hb256, hbval⟩
  · intro w next hst
    exact ServeDNS_failed { t with Next := next } w s q GoError.ErrTime hzone htsig hst
  · rw [hl]; simp
  · exact IsTsig_append_tsig _ _ _ hl (by rw [newTSIG_Hdr])

theorem bad_time_response_witness :
    Zones.Matches exampleServer.Zones (Request.Name signedWorld.req) ≠ "" ∧
    signedWorld.req.IsTsig = some exampleKey ∧
    ∃ (resp : Msg) (s' : World) (rep : TSIG) (b : List Nat),
      AnswersWith exampleServer (some GoError.ErrTime) signedWorld resp s' ∧
      resp.Extra.getLast? = some (.tsig rep) ∧ resp.IsTsig = some rep ∧
      rep.Error = RcodeBadTime ∧ rep.MAC = exampleKey.MAC ∧ rep.MACSize = exampleKey.MACSize ∧
      rep.TimeSigned = exampleKey.TimeSigned ∧ rep.OtherLen = 6 ∧
      rep.OtherData = hexEncode b ∧ b.length = 6 ∧ (∀ x ∈ b, x < 256) ∧
      bigEndianValue b = (signedWorld.now % 2 ^ 48).toNat :=
  ⟨by decide, by decide, bad_time_response exampleServer signedWorld exampleKey
    (by decide) (by decide)⟩

/-- C3, as the claim states it, fails: the signed example request, served on
a connection whose verification status is the unknown-key error, is in the
configured zone and carries a TSIG record, and the one response transmitted
has the response code NOTAUTH (9), which is not REFUSED (5). -/
theorem failure_rcode_counterexample :
    Zones.Matches exampleServer.Zones (Request.Name signedWorld.req) ≠ "" ∧
    signedWorld.req.IsTsig = some exampleKey ∧
    (TSIGServer.ServeDNS exampleServer (connWriter (some GoError.ErrSecret) (fun _ => none))
      signedWorld).map (fun x => x.2.sent.map (fun m => m.Rcode)) = some [RcodeNotAuth] ∧
    RcodeNotAuth ≠ RcodeRefused := by
  decide

/-- C3, amended: for a request in a configured zone that carries a TSIG record
and for every verification failure TsigStatus reports, the one response
ServeDNS writes has the response code NOTAUTH and the message id of the
request. -/
theorem failure_rcode_and_id (t : TSIGServer) (s : World) (q : TSIG) (err : GoError)
    (hzone : Zones.Matches t.Zones (Request.Name s.req) ≠ "")
    (htsig : s.req.IsTsig = some q) :
    ∃ (resp : Msg) (s' : World),
      AnswersWith t (some err) s resp s' ∧
      resp.Rcode = RcodeNotAuth ∧ resp.Id = s.req.Id := by
  refine ⟨failureResponse s q err, failedWorld s q err, ?_, ?_, ?_⟩
  · intro w next hst
    exact ServeDNS_failed { t with Next := next } w s q err hzone htsig hst
  · unfold failureResponse
    rw [message_Rcode, SetRcode_Rcode]
  · unfold failureResponse
    rw [message_Id, SetRcode_Id]
    rfl

theorem failure_rcode_and_id_witness :
    Zones.Matches exampleServer.Zones (Request.Name signedWorld.req) ≠ "" ∧
    signedWorld.req.IsTsig = some exampleKey ∧
    ∃ (resp : Msg) (s' : World),
      AnswersWith exampleServer (some (GoError.other "dns: bad signature")) signedWorld resp s' ∧
      resp.Rcode = RcodeNotAuth ∧ resp.Id = signedWorld.req.Id :=
  ⟨by decide, by decide, failure_rcode_and_id exampleServer signedWorld exampleKey
    (GoError.other "dns: bad signature") (by decide) (by decide)⟩

/-- C4: when the policy requires TSIG for the query type (the all flag is set
or the type is in the required set), a request in a configured zone without a
TSIG record, on a connection that reports no verification error as it does for
such a request, is answered by ServeDNS with exactly one written response; its
response code is REFUSED and no record of its additional section is a TSIG
record; the outcome does not depend on the next handler, which is not invoked,
and ServeDNS returns (RcodeSuccess, nil). -/
theorem required_missing_refused (t : TSIGServer) (s : World)
    (hzone : Zones.Matches t.Zones (Request.Name s.req) ≠ "")
    (hreq : t.all = true ∨ Request.QType s.req ∈ t.types)
    (htsig : s.req.IsTsig = none) :
    ∃ (resp : Msg) (s' : World),
      AnswersWith t none s resp s' ∧
      resp.Rcode = RcodeRefused ∧
      (∀ rr ∈ resp.Extra, rr.Header.Rrtype ≠ TypeTSIG ∧ ∀ q, rr ≠ .tsig q) ∧
      resp.IsTsig = none := by
  have hnil := SizeAndDo_Extra_nil (stripTsig s.req)
    (Msg.SetRcode {} (stripTsig s.req) RcodeRefused) (SetRcode_Extra _ _)
  refine ⟨restoreTsigWriter.message none (Msg.SetRcode {} (stripTsig s.req) RcodeRefused)
    { s with req := stripTsig s.req }, { s with req := stripTsig s.req }, ?_, ?_, ?_, ?_⟩
  · intro w next hst
    exact ServeDNS_missing { t with Next := next } w s hzone
      ((tsigRequired_iff _ _).2 hreq) htsig hst
  · rw [message_Rcode, SetRcode_Rcode]
  · rw [message_none]
    intro rr hrr
    rcases hnil with h | ⟨o, ho, h⟩
    · rw [h] at hrr; simp at hrr
    · rw [h] at hrr
      simp at hrr
      subst hrr
      exact ⟨by simp [RR.Header, ho, TypeOPT, TypeTSIG], by simp⟩
  · rw [message_none]
    exact IsTsig_of_nil_or_opt _ hnil

theorem required_missing_refused_witness :
    Zones.Matches exampleServer.Zones (Request.Name plainWorld.req) ≠ "" ∧
    (exampleServer.all = true ∨ Request.QType plainWorld.req ∈ exampleServer.types) ∧
    plainWorld.req.IsTsig = none ∧
    ∃ (resp : Msg) (s' : World),
      AnswersWith exampleServer none plainWorld resp s' ∧
      resp.Rcode = RcodeRefused ∧
      (∀ rr ∈ resp.Extra, rr.Header.Rrtype ≠ TypeTSIG ∧ ∀ q, rr ≠ .tsig q) ∧
      resp.IsTsig = none :=
  ⟨by decide, by decide, by decide,
   required_missing_refused exampleServer plainWorld (by decide) (by decide) (by decide)⟩

/-- C5: for a request in a configured zone whose last additional record is a
TSIG record and whose verification succeeds, the request ServeDNS passes to
the next handler has the original additional section without its last
element, the TSIG record: one record fewer, the others in order, and every
other part of the request (and of the world) as it was. -/
theorem verified_request_stripped (t : TSIGServer) (s : World) (q : TSIG)
    (hzone : Zones.Matches t.Zones (Request.Name s.req) ≠ "")
    (htsig : s.req.IsTsig = some q) :
    ∃ s' : World,
      s.req.Extra = s'.req.Extra ++ [.tsig q] ∧
      s'.req.Extra.length + 1 = s.req.Extra.length ∧
      s'.req = { s.req with Extra := s'.req.Extra } ∧
      s' = { s with req := s'.req } ∧
      ∀ (w : ResponseWriter) (h : Handler), w.TsigStatus = none →
        TSIGServer.ServeDNS { t with Next := some h } w s = some ((RcodeSuccess, none),
          let d : restoreTsigWriter := { ResponseWriter := w, reqTSIG := some q }
          let res := h d.toWriter s'
          if ClientWrite res.1.1 then res.2
          else (d.WriteMsg (Msg.SetRcode {} res.2.req res.1.1) res.2).2) := by
  obtain ⟨hx, _⟩ := IsTsig_eq_some _ _ htsig
  refine ⟨{ s with req := stripTsig s.req }, ?_, ?_, ?_, rfl, ?_⟩
  · rw [stripTsig_eq]; exact hx
  · rw [stripTsig_eq]
    have := congrArg List.length hx
    simp at this
    simp
    omega
  · rw [stripTsig_eq]
  · intro w h hst
    exact ServeDNS_verified { t with Next := some h } w s q hzone htsig hst

theorem verified_request_stripped_witness :
    Zones.Matches exampleServer.Zones (Request.Name signedWorld.req) ≠ "" ∧
    signedWorld.req.IsTsig = some exampleKey ∧
    ∃ s' : World,
      signedWorld.req.Extra = s'.req.Extra ++ [.tsig exampleKey] ∧
      s'.req.Extra.length + 1 = signedWorld.req.Extra.length ∧
      s'.req = { signedWorld.req with Extra := s'.req.Extra } ∧
      s' = { signedWorld with req := s'.req } ∧
      ∀ (w : ResponseWriter) (h : Handler), w.TsigStatus = none →
        TSIGServer.ServeDNS { exampleServer with Next := some h } w signedWorld =
          some ((RcodeSuccess, none),
            let d : restoreTsigWriter := { ResponseWriter := w, reqTSIG := some exampleKey }
            let res := h d.toWriter s'
            if ClientWrite res.1.1 then res.2
            else (d.WriteMsg (Msg.SetRcode {} res.2.req res.1.1) res.2).2) :=
  ⟨by decide, by decide,
   verified_request_stripped exampleServer signedWorld exampleKey (by decide) (by decide)⟩

/-- C6: a message written through restoreTsigWriter.WriteMsg for a request
that carried a TSIG record, and not itself ending with one, is handed to the
embedded writer with a TSIG record appended whose OrigId is the message's
header id and whose key name and algorithm are the request record's; so the
response ServeDNS synthesizes for a request with a TSIG record, after a failed
verification as well as for an unwritten code of the next handler, carries a
TSIG record whose OrigId is the response's header id. -/
theorem restored_tsig_orig_id (t : TSIGServer) (s : World) (q : TSIG)
    (hzone : Zones.Matches t.Zones (Request.Name s.req) ≠ "")
    (htsig : s.req.IsTsig = some q) :
    (∀ (r : restoreTsigWriter) (m : Msg) (s0 : World) (k : TSIG),
      r.reqTSIG = some k → m.IsTsig = none →
      ∃ (out : Msg) (rep : TSIG),
        r.WriteMsg m s0 = r.ResponseWriter.WriteMsg out s0 ∧
        out.Extra = (SizeAndDo s0.req m).Extra ++ [.tsig rep] ∧ out.IsTsig = some rep ∧
        out.Id = m.Id ∧ rep.OrigId = out.Id ∧
        rep.Hdr.Name = k.Hdr.Name ∧ rep.Algorithm = k.Algorithm) ∧
    (∀ err : GoError, ∃ (resp : Msg) (s' : World) (rep : TSIG),
      AnswersWith t (some err) s resp s' ∧
      resp.IsTsig = some rep ∧ rep.OrigId = resp.Id) ∧
    (∀ w : ResponseWriter, w.TsigStatus = none →
      let d : restoreTsigWriter := { ResponseWriter := w, reqTSIG := some q }
      let res := NextOrFailure t.Name t.Next d.toWriter { s with req := stripTsig s.req }
      let resp := restoreTsigWriter.message (some q) (Msg.SetRcode {} res.2.req res.1.1) res.2
      ClientWrite res.1.1 = false →
        t.ServeDNS w s = some ((RcodeSuccess, none), (w.WriteMsg resp res.2).2) ∧
        ∃ rep, resp.IsTsig = some rep ∧ rep.OrigId = resp.Id) := by
  refine ⟨?_, ?_, ?_⟩
  · intro r m s0 k hk hm
    have hx := message_append k m s0 hm
    refine ⟨restoreTsigWriter.message (some k) m s0,
      restoreTsigWriter.newTSIG k (SizeAndDo s0.req m) s0.now, ?_, hx, ?_, ?_, ?_, ?_, ?_⟩
    · unfold restoreTsigWriter.WriteMsg
      rw [hk]
    · exact IsTsig_append_tsig _ _ _ hx (by rw [newTSIG_Hdr])
    · rw [message_Id]
    · rw [newTSIG_OrigId, message_Id, SizeAndDo_Id]
    · rw [newTSIG_Hdr]
    · rw [newTSIG_Algorithm]
  · intro err
    obtain ⟨l, m, hl, hmid⟩ := failureResponse_Extra s q err
    refine ⟨failureResponse s q err, failedWorld s q err,
      restoreTsigWriter.newTSIG (markedTSIG q err) m s.now, ?_, ?_, ?_⟩
    · intro w next hst
      exact ServeDNS_failed { t with Next := next } w s q err hzone htsig hst
    · exact IsTsig_append_tsig _ _ _ hl (by rw [newTSIG_Hdr])
    · unfold failureResponse
      rw [newTSIG_OrigId, message_Id, SetRcode_Id, hmid]
      rfl
  · intro w hst d res resp hcw
    have hx := message_of_empty q (Msg.SetRcode {} res.2.req res.1.1) res.2 (SetRcode_Extra _ _)
    refine ⟨?_, restoreTsigWriter.newTSIG q
      (SizeAndDo res.2.req (Msg.SetRcode {} res.2.req res.1.1)) res.2.now,
      IsTsig_append_tsig _ _ _ hx (by rw [newTSIG_Hdr]), ?_⟩
    · rw [ServeDNS_verified t w s q hzone htsig hst]
      simp only []
      rw [if_neg (by simpa using hcw)]
      rfl
    · rw [newTSIG_OrigId, message_Id, SizeAndDo_Id]

theorem restored_tsig_orig_id_witness :
    Zones.Matches exampleServer.Zones (Request.Name signedWorld.req) ≠ "" ∧
    signedWorld.req.IsTsig = some exampleKey ∧
    ∃ (resp : Msg) (s' : World) (rep : TSIG),
      AnswersWith exampleServer (some GoError.ErrSecret) signedWorld resp s' ∧
      resp.IsTsig = some rep ∧ rep.OrigId = resp.Id :=
  ⟨by decide, by decide,
   (restored_tsig_orig_id exampleServer signedWorld exampleKey (by decide) (by decide)).2.1
     GoError.ErrSecret⟩

/-- C7: when the query name matches none of the zones, and when the request
carries no TSIG record and the policy does not require one for its query type,
ServeDNS is the call of the next handler on the writer and the request it was
given: nothing is written or changed besides, and the result is the next
handler's own pair of code and error. -/
theorem forwarded_untouched (t : TSIGServer) (w : ResponseWriter) (s : World)
    (hcase : Zones.Matches t.Zones (Request.Name s.req) = "" ∨
      (s.req.IsTsig = none ∧ t.all = false ∧ Request.QType s.req ∉ t.types)) :
    t.ServeDNS w s = some (NextOrFailure t.Name t.Next w s) ∧
    ∀ h : Handler, t.Next = some h → t.ServeDNS w s = some (h w s) := by
  have key : t.ServeDNS w s = some (NextOrFailure t.Name t.Next w s) := by
    rcases hcase with hz | ⟨htsig, hall, hty⟩
    · exact ServeDNS_unmatched t w s hz
    · apply ServeDNS_exempt t w s _ htsig
      cases hr : t.tsigRequired (Request.QType s.req) with
      | false => rfl
      | true =>
        rcases (tsigRequired_iff _ _).1 hr with h | h
        · rw [hall] at h; cases h
        · exact absurd h hty
  refine ⟨key, ?_⟩
  intro h hn
  rw [key, hn]
  rfl

theorem forwarded_untouched_witness :
    (Zones.Matches exemptServer.Zones (Request.Name plainWorld.req) = "" ∨
      (plainWorld.req.IsTsig = none ∧ exemptServer.all = false ∧
        Request.QType plainWorld.req ∉ exemptServer.types)) ∧
    exemptServer.ServeDNS plainConn plainWorld =
      some (NextOrFailure exemptServer.Name exemptServer.Next plainConn plainWorld) ∧
    ∀ h : Handler, exemptServer.Next = some h →
      exemptServer.ServeDNS plainConn plainWorld = some (h plainConn plainWorld) :=
  ⟨by decide, forwarded_untouched exemptServer plainConn plainWorld (by decide)⟩

/-- C8: restoreTsigWriter.WriteMsg calls the embedded writer once, with the
message it has prepared, and returns its result; it appends a TSIG record,
as the last additional record, exactly when the request came with one and the
message does not end with one after SizeAndDo has run.  That differs from the
message as passed: the signed example reply ends with a TSIG record and has no
OPT record, the request has an OPT record, and the reply is transmitted with
the records TSIG, OPT and a second, appended TSIG. -/
theorem tsig_appended_after_opt :
    (∀ (r : restoreTsigWriter) (m : Msg) (s : World),
      r.WriteMsg m s = r.ResponseWriter.WriteMsg (restoreTsigWriter.message r.reqTSIG m s) s) ∧
    (∀ (q : Option TSIG) (m : Msg) (s : World),
      (∃ k, q = some k ∧ (SizeAndDo s.req m).IsTsig = none ∧
        restoreTsigWriter.message q m s = { SizeAndDo s.req m with
          Extra := (SizeAndDo s.req m).Extra ++
            [.tsig (restoreTsigWriter.newTSIG k (SizeAndDo s.req m) s.now)] }) ∨
      ((q = none ∨ (SizeAndDo s.req m).IsTsig ≠ none) ∧
        restoreTsigWriter.message q m s = SizeAndDo s.req m)) ∧
    signedReply.IsTsig = some upstreamKey ∧
    strippedWorld.req.Extra = [.opt exampleOPT] ∧
    ((restoreTsigWriter.WriteMsg { ResponseWriter := plainConn, reqTSIG := some exampleKey }
      signedReply strippedWorld).2.sent.map
        (fun m => m.Extra.map (fun rr => rr.Header.Rrtype))) =
      [[TypeTSIG, TypeOPT, TypeTSIG]] := by
  refine ⟨fun _ _ _ => rfl, message_cases, ?_, ?_, ?_⟩ <;> decide

/-- C9: for a request in a configured zone whose TSIG record fails
verification, ServeDNS answers on its own, whatever the next handler: it
writes one response, through the decorator, in a world where the request
still has all its additional records, the TSIG record (with the error code
stored) last, and returns (RcodeSuccess, nil); on a connection that records
what it transmits, exactly that response is added. -/
theorem failed_verification_short_circuits (t : TSIGServer) (s : World) (q : TSIG)
    (err : GoError) (hzone : Zones.Matches t.Zones (Request.Name s.req) ≠ "")
    (htsig : s.req.IsTsig = some q) :
    ∃ (resp : Msg) (s' : World),
      AnswersWith t (some err) s resp s' ∧
      (∀ w : ResponseWriter,
        restoreTsigWriter.WriteMsg { ResponseWriter := w, reqTSIG := some (markedTSIG q err) }
          (Msg.SetRcode {} s'.req RcodeNotAuth) s' = w.WriteMsg resp s') ∧
      s'.req.Extra = s.req.Extra.dropLast ++ [.tsig (markedTSIG q err)] ∧
      s'.req.Extra.length = s.req.Extra.length ∧
      s'.req.IsTsig = some (markedTSIG q err) ∧
      s' = { s with req := s'.req } ∧
      ∀ (result : Msg → Option GoError) (next : Option Handler),
        TSIGServer.ServeDNS { t with Next := next } (connWriter (some err) result) s =
          some ((RcodeSuccess, none), { s' with sent := s.sent ++ [resp] }) := by
  obtain ⟨hx, hty⟩ := IsTsig_eq_some _ _ htsig
  have hex : (failedWorld s q err).req.Extra =
      s.req.Extra.dropLast ++ [.tsig (markedTSIG q err)] := rfl
  refine ⟨failureResponse s q err, failedWorld s q err, ?_, ?_, hex, ?_, ?_, rfl, ?_⟩
  · intro w next hst
    exact ServeDNS_failed { t with Next := next } w s q err hzone htsig hst
  · intro w
    rfl
  · rw [hex]
    have := congrArg List.length hx
    simp at this
    simp
    omega
  · exact IsTsig_append_tsig _ _ _ hex hty
  · intro result next
    rw [ServeDNS_failed { t with Next := next } (connWriter (some err) result) s q err
      hzone htsig rfl]
    rfl

theorem failed_verification_short_circuits_witness :
    Zones.Matches exampleServer.Zones (Request.Name signedWorld.req) ≠ "" ∧
    signedWorld.req.IsTsig = some exampleKey ∧
    ∃ (resp : Msg) (s' : World),
      AnswersWith exampleServer (some GoError.ErrTime) signedWorld resp s' ∧
      (∀ w : ResponseWriter,
        restoreTsigWriter.WriteMsg
          { ResponseWriter := w, reqTSIG := some (markedTSIG exampleKey GoError.ErrTime) }
          (Msg.SetRcode {} s'.req RcodeNotAuth) s' = w.WriteMsg resp s') ∧
      s'.req.Extra =
        signedWorld.req.Extra.dropLast ++ [.tsig (markedTSIG exampleKey GoError.ErrTime)] ∧
      s'.req.Extra.length = signedWorld.req.Extra.length ∧
      s'.req.IsTsig = some (markedTSIG exampleKey GoError.ErrTime) ∧
      s' = { signedWorld with req := s'.req } ∧
      ∀ (result : Msg → Option GoError) (next : Option Handler),
        TSIGServer.ServeDNS { exampleServer with Next := next }
          (connWriter (some GoError.ErrTime) result) signedWorld =
          some ((RcodeSuccess, none), { s' with sent := signedWorld.sent ++ [resp] }) :=
  ⟨by decide, by decide,
   failed_verification_short_circuits exampleServer signedWorld exampleKey GoError.ErrTime
     (by decide) (by decide)⟩

/-- C10: for a verified request, when the next handler returns a code that
stands for a response not yet written (ClientWrite is false: SERVFAIL,
REFUSED, FORMERR, NOTIMP and no other), ServeDNS writes one synthesized
response with that code and the id of the request through the TSIG-restoring
writer: the decorator hands it, with the code and the id kept and a TSIG
record last, to the writer ServeDNS was given, once, and that is all ServeDNS
does after the next handler; when the code stands for a written response,
ServeDNS writes nothing further; in both cases it returns
(RcodeSuccess, nil).  On a connection that records what it transmits, the
response is the one message added after the next handler has returned. -/
theorem verified_delegation_result (t : TSIGServer) (w : ResponseWriter) (s : World) (q : TSIG)
    (hzone : Zones.Matches t.Zones (Request.Name s.req) ≠ "")
    (htsig : s.req.IsTsig = some q) (hst : w.TsigStatus = none) :
    let d : restoreTsigWriter := { ResponseWriter := w, reqTSIG := some q }
    let res := NextOrFailure t.Name t.Next d.toWriter { s with req := stripTsig s.req }
    let resp := Msg.SetRcode {} res.2.req res.1.1
    (ClientWrite res.1.1 = false →
      t.ServeDNS w s = some ((RcodeSuccess, none), (d.WriteMsg resp res.2).2) ∧
      resp.Rcode = res.1.1 ∧ resp.Id = res.2.req.Id ∧
      (restoreTsigWriter.message (some q) resp res.2).Rcode = res.1.1 ∧
      (restoreTsigWriter.message (some q) resp res.2).Id = res.2.req.Id ∧
      d.WriteMsg resp res.2 = w.WriteMsg (restoreTsigWriter.message (some q) resp res.2) res.2 ∧
      t.ServeDNS w s = some ((RcodeSuccess, none),
        (w.WriteMsg (restoreTsigWriter.message (some q) resp res.2) res.2).2) ∧
      ∃ rep, (restoreTsigWriter.message (some q) resp res.2).Extra.getLast? = some (.tsig rep) ∧
        (restoreTsigWriter.message (some q) resp res.2).IsTsig = some rep) ∧
    (ClientWrite res.1.1 = true → t.ServeDNS w s = some ((RcodeSuccess, none), res.2)) ∧
    (∀ code : Int, ClientWrite code = false ↔
      (code = RcodeServerFailure ∨ code = RcodeRefused ∨ code = RcodeFormatError ∨
        code = RcodeNotImplemented)) ∧
    (∀ result : Msg → Option GoError,
      let d0 : restoreTsigWriter :=
        { ResponseWriter := connWriter none result, reqTSIG := some q }
      let res0 := NextOrFailure t.Name t.Next d0.toWriter { s with req := stripTsig s.req }
      (ClientWrite res0.1.1 = false →
        t.ServeDNS (connWriter none result) s = some ((RcodeSuccess, none),
          { res0.2 with sent := res0.2.sent ++
              [restoreTsigWriter.message (some q) (Msg.SetRcode {} res0.2.req res0.1.1)
                res0.2] })) ∧
      (ClientWrite res0.1.1 = true →
        t.ServeDNS (connWriter none result) s = some ((RcodeSuccess, none), res0.2))) := by
  intro d res resp
  refine ⟨?_, ?_, ?_, ?_⟩
  · intro hcw
    have hx := message_of_empty q resp res.2 (SetRcode_Extra _ _)
    have hserve : t.ServeDNS w s = some ((RcodeSuccess, none), (d.WriteMsg resp res.2).2) := by
      rw [ServeDNS_verified t w s q hzone htsig hst]
      simp only []
      rw [if_neg (by simpa using hcw)]
    refine ⟨hserve, rfl, SetRcode_Id _ _, ?_, ?_, rfl, hserve,
      restoreTsigWriter.newTSIG q (SizeAndDo res.2.req resp) res.2.now, ?_,
      IsTsig_append_tsig _ _ _ hx (by rw [newTSIG_Hdr])⟩
    · rw [message_Rcode]; rfl
    · rw [message_Id]; exact SetRcode_Id _ _
    · rw [hx]; simp
  · intro hcw
    rw [ServeDNS_verified t w s q hzone htsig hst]
    simp only []
    rw [if_pos hcw]
  · intro code
    unfold ClientWrite
    by_cases h1 : code = RcodeServerFailure <;> by_cases h2 : code = RcodeRefused <;>
      by_cases h3 : code = RcodeFormatError <;> by_cases h4 : code = RcodeNotImplemented <;>
      simp [h1, h2, h3, h4]
  · intro result d0 res0
    refine ⟨?_, ?_⟩
    · intro hcw
      rw [ServeDNS_verified t (connWriter none result) s q hzone htsig rfl]
      simp only []
      rw [if_neg (by simpa using hcw)]
      rfl
    · intro hcw
      rw [ServeDNS_verified t (connWriter none result) s q hzone htsig rfl]
      simp only []
      rw [if_pos hcw]

theorem verified_delegation_result_witness :
    Zones.Matches failingServer.Zones (Request.Name signedWorld.req) ≠ "" ∧
    signedWorld.req.IsTsig = some exampleKey ∧
    plainConn.TsigStatus = none ∧
    (let d : restoreTsigWriter := { ResponseWriter := plainConn, reqTSIG := some exampleKey }
     let res := NextOrFailure failingServer.Name failingServer.Next d.toWriter
       { signedWorld with req := stripTsig signedWorld.req }
     let resp := Msg.SetRcode {} res.2.req res.1.1
     (ClientWrite res.1.1 = false →
       failingServer.ServeDNS plainConn signedWorld =
         some ((RcodeSuccess, none), (d.WriteMsg resp res.2).2) ∧
       resp.Rcode = res.1.1 ∧ resp.Id = res.2.req.Id ∧
       (restoreTsigWriter.message (some exampleKey) resp res.2).Rcode = res.1.1 ∧
       (restoreTsigWriter.message (some exampleKey) resp res.2).Id = res.2.req.Id ∧
       d.WriteMsg resp res.2 =
         plainConn.WriteMsg (restoreTsigWriter.message (some exampleKey) resp res.2) res.2 ∧
       failingServer.ServeDNS plainConn signedWorld = some ((RcodeSuccess, none),
         (plainConn.WriteMsg (restoreTsigWriter.message (some exampleKey) resp res.2)
           res.2).2) ∧
       ∃ rep, (restoreTsigWriter.message (some exampleKey) resp res.2).Extra.getLast? =
           some (.tsig rep) ∧
         (restoreTsigWriter.message (some exampleKey) resp res.2).IsTsig = some rep) ∧
     (ClientWrite res.1.1 = true →
       failingServer.ServeDNS plainConn signedWorld = some ((RcodeSuccess, none), res.2)) ∧
     (∀ code : Int, ClientWrite code = false ↔
       (code = RcodeServerFailure ∨ code = RcodeRefused ∨ code = RcodeFormatError ∨
         code = RcodeNotImplemented)) ∧
     (∀ result : Msg → Option GoError,
       let d0 : restoreTsigWriter :=
         { ResponseWriter := connWriter none result, reqTSIG := some exampleKey }
       let res0 := NextOrFailure failingServer.Name failingServer.Next d0.toWriter
         { signedWorld with req := stripTsig signedWorld.req }
       (ClientWrite res0.1.1 = false →
         failingServer.ServeDNS (connWriter none result) signedWorld =
           some ((RcodeSuccess, none),
             { res0.2 with sent := res0.2.sent ++
                 [restoreTsigWriter.message (some exampleKey)
                   (Msg.SetRcode {} res0.2.req res0.1.1) res0.2] })) ∧
       (ClientWrite res0.1.1 = true →
         failingServer.ServeDNS (connWriter none result) signedWorld =
           some ((RcodeSuccess, none), res0.2)))) ∧
    (failingServer.ServeDNS plainConn signedWorld).map
      (fun x => (x.1, x.2.sent.map (fun m => (m.Rcode, m.Id, m.Extra.map
        (fun rr => rr.Header.Rrtype))))) =
      some ((RcodeSuccess, none), [(RcodeServerFailure, 7, [TypeOPT, TypeTSIG])]) :=
  ⟨by decide, by decide, rfl,
   verified_delegation_result failingServer plainConn signedWorld exampleKey
     (by decide) (by decide) rfl, by decide⟩

/-- C11, as the claim states it, fails: the signed example request is
verified, the next handler returns success together with an error and writes
nothing, and ServeDNS returns (RcodeSuccess, nil) with nothing transmitted:
no response carrying the handler's code is written. -/
theorem inner_error_counterexample :
    Zones.Matches erringServer.Zones (Request.Name signedWorld.req) ≠ "" ∧
    signedWorld.req.IsTsig = some exampleKey ∧
    plainConn.TsigStatus = none ∧
    (NextOrFailure erringServer.Name erringServer.Next
      (restoreTsigWriter.toWriter { ResponseWriter := plainConn, reqTSIG := some exampleKey })
      strippedWorld).1 = (RcodeSuccess, some (GoError.other "backend error")) ∧
    (erringServer.ServeDNS plainConn signedWorld).map (fun x => (x.1, x.2.sent)) =
      some ((RcodeSuccess, none), []) := by
  decide

/-- C11, amended: for a verified request and a result of the next handler
with a non-nil error, ServeDNS does not propagate the error and returns
(RcodeSuccess, nil); when the code stands for a response not yet written
(ClientWrite is false) it writes one response carrying that code through the
TSIG-restoring writer, which leaves with that code and a trailing TSIG record;
when the code stands for a written response it writes nothing further. -/
theorem inner_error_not_propagated (t : TSIGServer) (w : ResponseWriter) (s : World) (q : TSIG)
    (hzone : Zones.Matches t.Zones (Request.Name s.req) ≠ "")
    (htsig : s.req.IsTsig = some q) (hst : w.TsigStatus = none) :
    let d : restoreTsigWriter := { ResponseWriter := w, reqTSIG := some q }
    let res := NextOrFailure t.Name t.Next d.toWriter { s with req := stripTsig s.req }
    let resp := Msg.SetRcode {} res.2.req res.1.1
    res.1.2 ≠ none →
      (t.ServeDNS w s).map (fun x => x.1) = some (RcodeSuccess, none) ∧
      (ClientWrite res.1.1 = false →
        t.ServeDNS w s = some ((RcodeSuccess, none), (d.WriteMsg resp res.2).2) ∧
        d.WriteMsg resp res.2 = w.WriteMsg (restoreTsigWriter.message (some q) resp res.2) res.2 ∧
        (restoreTsigWriter.message (some q) resp res.2).Rcode = res.1.1 ∧
        ∃ rep, (restoreTsigWriter.message (some q) resp res.2).IsTsig = some rep) ∧
      (ClientWrite res.1.1 = true → t.ServeDNS w s = some ((RcodeSuccess, none), res.2)) := by
  intro d res resp _
  have key := ServeDNS_verified t w s q hzone htsig hst
  refine ⟨by rw [key]; rfl, ?_, ?_⟩
  · intro hcw
    have hx := message_of_empty q resp res.2 (SetRcode_Extra _ _)
    refine ⟨?_, rfl, ?_, _, IsTsig_append_tsig _ _ _ hx (by rw [newTSIG_Hdr])⟩
    · rw [key]
      simp only []
      rw [if_neg (by simpa using hcw)]
    · rw [message_Rcode]; rfl
  · intro hcw
    rw [key]
    simp only []
    rw [if_pos hcw]

theorem inner_error_not_propagated_witness :
    Zones.Matches failingServer.Zones (Request.Name signedWorld.req) ≠ "" ∧
    signedWorld.req.IsTsig = some exampleKey ∧
    plainConn.TsigStatus = none ∧
    (let d : restoreTsigWriter := { ResponseWriter := plainConn, reqTSIG := some exampleKey }
     let res := NextOrFailure failingServer.Name failingServer.Next d.toWriter
       { signedWorld with req := stripTsig signedWorld.req }
     let resp := Msg.SetRcode {} res.2.req res.1.1
     res.1.2 ≠ none →
       (failingServer.ServeDNS plainConn signedWorld).map (fun x => x.1) =
         some (RcodeSuccess, none) ∧
       (ClientWrite res.1.1 = false →
         failingServer.ServeDNS plainConn signedWorld =
           some ((RcodeSuccess, none), (d.WriteMsg resp res.2).2) ∧
         d.WriteMsg resp res.2 =
           plainConn.WriteMsg (restoreTsigWriter.message (some exampleKey) resp res.2) res.2 ∧
         (restoreTsigWriter.message (some exampleKey) resp res.2).Rcode = res.1.1 ∧
         ∃ rep, (restoreTsigWriter.message (some exampleKey) resp res.2).IsTsig = some rep) ∧
       (ClientWrite res.1.1 = true →
         failingServer.ServeDNS plainConn signedWorld = some ((RcodeSuccess, none), res.2))) :=
  ⟨by decide, by decide, rfl,
   inner_error_not_propagated failingServer plainConn signedWorld exampleKey
     (by decide) (by decide) rfl⟩

/-- C15: the response to a failed verification and the response synthesized
after delegation carry the OPT record of the request (as it is when the
response is written), before the TSIG record.  The Required-Missing refusal
does not: the plain example request carries an OPT record and no TSIG
record, the server requires TSIG, and the one response transmitted is a
REFUSED with an empty additional section. -/
theorem opt_lost_on_required_missing :
    (∀ (s : World) (q : TSIG) (err : GoError) (o : OPT),
      s.req.IsTsig = some q → s.req.IsEdns0 = some o →
      ∃ rep, (failureResponse s q err).Extra =
        [.opt { o with Hdr := clearVersionAndFlags o.Hdr }, .tsig rep]) ∧
    (∀ (s : World) (q : TSIG) (code : Int) (o : OPT),
      s.req.IsEdns0 = some o →
      ∃ rep, (restoreTsigWriter.message (some q) (Msg.SetRcode {} s.req code) s).Extra =
        [.opt { o with Hdr := clearVersionAndFlags o.Hdr }, .tsig rep]) ∧
    Zones.Matches exampleServer.Zones (Request.Name plainWorld.req) ≠ "" ∧
    exampleServer.tsigRequired (Request.QType plainWorld.req) = true ∧
    plainWorld.req.IsTsig = none ∧
    plainWorld.req.IsEdns0 = some exampleOPT ∧
    (exampleServer.ServeDNS plainConn plainWorld).map
      (fun x => x.2.sent.map (fun m => (m.Rcode, m.Extra))) = some [(RcodeRefused, [])] := by
  refine ⟨?_, ?_, ?_, ?_, ?_, ?_, ?_⟩
  · intro s q err o htsig ho
    exact ⟨_, message_synth_opt _ _ _ o (SetRcode_Extra _ _)
      (by rw [failedWorld_IsEdns0 s q err htsig]; exact ho)⟩
  · intro s q code o ho
    exact ⟨_, message_synth_opt _ _ _ o (SetRcode_Extra _ _) ho⟩
  all_goals decide

/-- C17: the plain example request is in the configured zone and carries no
TSIG record, only an OPT record; the server requires TSIG; after ServeDNS the
additional section of the request is empty: the record cut off by the strip
of lines 72 to 76 is the OPT record, not a TSIG record. -/
theorem strip_cuts_opt_without_tsig :
    Zones.Matches exampleServer.Zones (Request.Name plainWorld.req) ≠ "" ∧
    plainWorld.req.IsTsig = none ∧
    plainWorld.req.Extra = [.opt exampleOPT] ∧
    (exampleServer.ServeDNS plainConn plainWorld).map (fun x => x.2.req.Extra) = some [] ∧
    (∀ (t : TSIGServer) (w : ResponseWriter) (s : World),
      Zones.Matches t.Zones (Request.Name s.req) ≠ "" →
      t.tsigRequired (Request.QType s.req) = true →
      s.req.IsTsig = none → w.TsigStatus = none →
      ∃ resp, t.ServeDNS w s = some ((RcodeSuccess, none),
        (w.WriteMsg resp { s with req := { s.req with Extra := s.req.Extra.dropLast } }).2)) := by
  refine ⟨by decide, by decide, by decide, by decide, ?_⟩
  intro t w s hzone hreq htsig hst
  rw [ServeDNS_missing t w s hzone hreq htsig hst, stripTsig_eq]
  exact ⟨_, rfl⟩

/-- C19: when the writer reports a verification error only for requests whose
last additional record is a TSIG record, ServeDNS does not panic, for every
server, policy and request: the stores to the Error field of the TSIG record
are reached only with the record present.  The only way to the panic is the
verification-failure branch entered without a TSIG record. -/
theorem no_nil_tsig_dereference (t : TSIGServer) (w : ResponseWriter) (s : World)
    (hpre : w.TsigStatus ≠ none → s.req.IsTsig ≠ none) :
    t.ServeDNS w s ≠ none ∧
    (∀ (t0 : TSIGServer) (w0 : ResponseWriter) (s0 : World), t0.ServeDNS w0 s0 = none →
      s0.req.IsTsig = none ∧ w0.TsigStatus ≠ none) := by
  refine ⟨?_, ?_⟩
  · intro h
    obtain ⟨_, _, hq, hst⟩ := (ServeDNS_panics_iff t w s).1 h
    exact hpre hst hq
  · intro t0 w0 s0 h
    obtain ⟨_, _, hq, hst⟩ := (ServeDNS_panics_iff t0 w0 s0).1 h
    exact ⟨hq, hst⟩

theorem no_nil_tsig_dereference_witness :
    (plainConn.TsigStatus ≠ none → plainWorld.req.IsTsig ≠ none) ∧
    exampleServer.ServeDNS plainConn plainWorld ≠ none ∧
    (∀ (t0 : TSIGServer) (w0 : ResponseWriter) (s0 : World), t0.ServeDNS w0 s0 = none →
      s0.req.IsTsig = none ∧ w0.TsigStatus ≠ none) :=
  ⟨by decide, no_nil_tsig_dereference exampleServer plainConn plainWorld (by decide)⟩

end Tsig

namespace TransferPlugin

/-! ## Lemmas on the loops of `parseTransfer` -/

theorem toArgs_append (lib : Lib) (x : xfr) (pos : String) (a b : List String) :
    toArgs lib x pos (a ++ b) =
      match toArgs lib x pos a with
      | .error e => .error e
      | .ok x1 => toArgs lib x1 pos b := by
  induction a generalizing x with
  | nil => rfl
  | cons h rest ih =>
    simp only [List.cons_append, toArgs]
    cases toHost lib x pos h with
    | error e => rfl
    | ok x1 => exact ih x1

theorem blockLines_append (lib : Lib) (x : xfr) (a b : List Line) :
    blockLines lib x (a ++ b) =
      match blockLines lib x a with
      | .error e => .error e
      | .ok x1 => blockLines lib x1 b := by
  induction a generalizing x with
  | nil => rfl
  | cons h rest ih =>
    simp only [List.cons_append, blockLines]
    cases blockLine lib x h with
    | error e => rfl
    | ok x1 => exact ih x1

theorem parseDirectives_append (lib : Lib) (keys : List String) (t : Transfer)
    (a b : List Directive) :
    parseDirectives lib keys t (a ++ b) =
      match parseDirectives lib keys t a with
      | .error e => .error e
      | .ok t1 => parseDirectives lib keys t1 b := by
  induction a generalizing t with
  | nil => rfl
  | cons h rest ih =>
    simp only [List.cons_append, parseDirectives]
    cases parseXfr lib keys h with
    | error e => rfl
    | ok x1 => exact ih _

/-- Arguments that are all networks leave the host list as it is. -/
theorem toArgs_all_cidr (lib : Lib) (x : xfr) (pos : String) (args : List String)
    (h : ∀ a ∈ args, a ≠ "*" ∧ (lib.ParseCIDR a).isSome = true) :
    ∃ x1, toArgs lib x pos args = .ok x1 ∧ x1.«to» = x.«to» ∧
      x1.toNet = x.toNet ++ args.filterMap lib.ParseCIDR := by
  induction args generalizing x with
  | nil => exact ⟨x, rfl, rfl, by simp⟩
  | cons a rest ih =>
    obtain ⟨ha, hc⟩ := h a (List.mem_cons_self _ _)
    obtain ⟨n, hn⟩ := Option.isSome_iff_exists.1 hc
    obtain ⟨x1, h1, h2, h3⟩ := ih { x with toNet := x.toNet ++ [n] }
      (fun b hb => h b (List.mem_cons_of_mem _ hb))
    refine ⟨x1, ?_, h2, ?_⟩
    · simp only [toArgs, toHost, ha, hn, if_false]
      exact h1
    · rw [h3]
      simp [hn]

/-- A block that is read without an error has only `to` lines, each with an
argument. -/
theorem blockLines_ok_lines (lib : Lib) (x x1 : xfr) (ls : List Line)
    (h : blockLines lib x ls = .ok x1) : ∀ l ∈ ls, l.val = "to" ∧ l.args ≠ [] := by
  induction ls generalizing x with
  | nil => intro l hl; cases hl
  | cons l0 rest ih =>
    intro l hl
    unfold blockLines at h
    cases hb : blockLine lib x l0 with
    | error e => rw [hb] at h; cases h
    | ok x2 =>
      rw [hb] at h
      rcases List.mem_cons.1 hl with rfl | hr
      · unfold blockLine at hb
        by_cases hv : l.val = "to"
        · refine ⟨hv, ?_⟩
          intro ha
          simp [hv, ha] at hb
        · simp [hv] at hb
      · exact ih x2 h l hr

/-- A rule that is accepted has a host list that is not empty. -/
theorem parseXfr_ok_to (lib : Lib) (keys : List String) (d : Directive) (x : xfr)
    (h : parseXfr lib keys d = .ok x) : x.«to» ≠ [] := by
  unfold parseXfr at h
  simp only [] at h
  split at h
  · cases h
  · split at h
    · cases h
    · rename_i hlen
      cases h
      intro h0
      exact hlen (by rw [h0]; rfl)

theorem parseXfr_ok_lines (lib : Lib) (keys : List String) (d : Directive) (x : xfr)
    (h : parseXfr lib keys d = .ok x) : d.block ≠ [] ∧ ∀ l ∈ d.block, l.val = "to" ∧ l.args ≠ [] := by
  have hto := parseXfr_ok_to lib keys d x h
  unfold parseXfr at h
  simp only [] at h
  split at h
  · cases h
  · rename_i x1 hb
    split at h
    · cases h
    · cases h
      refine ⟨?_, blockLines_ok_lines lib _ _ _ hb⟩
      intro hnil
      rw [hnil] at hb
      simp [blockLines] at hb
      subst hb
      exact hto rfl

theorem parseDirectives_error_of_mem (lib : Lib) (keys : List String) (t : Transfer)
    (ds : List Directive) (d : Directive) (hd : d ∈ ds)
    (he : ∀ x, parseXfr lib keys d ≠ .ok x) :
    ∃ e, parseDirectives lib keys t ds = .error e := by
  induction ds generalizing t with
  | nil => cases hd
  | cons d0 rest ih =>
    unfold parseDirectives
    cases hx : parseXfr lib keys d0 with
    | error e => exact ⟨e, rfl⟩
    | ok x =>
      rcases List.mem_cons.1 hd with rfl | hr
      · exact absurd hx (he x)
      · exact ih _ hr

theorem parseDirectives_ok_to (lib : Lib) (keys : List String) (t t1 : Transfer)
    (ds : List Directive) (h : parseDirectives lib keys t ds = .ok t1) :
    t1.Transferers = t.Transferers ∧ ∀ x ∈ t1.xfrs, x ∈ t.xfrs ∨ x.«to» ≠ [] := by
  induction ds generalizing t with
  | nil =>
    simp [parseDirectives] at h
    subst h
    exact ⟨rfl, fun x hx => Or.inl hx⟩
  | cons d0 rest ih =>
    unfold parseDirectives at h
    cases hx : parseXfr lib keys d0 with
    | error e => rw [hx] at h; cases h
    | ok x0 =>
      rw [hx] at h
      obtain ⟨h1, h2⟩ := ih _ h
      refine ⟨h1, ?_⟩
      intro x hxm
      rcases h2 x hxm with hm | hne
      · simp at hm
        rcases hm with hm | rfl
        · exact Or.inl hm
        · exact Or.inr (parseXfr_ok_to lib keys d0 _ hx)
      · exact Or.inr hne

theorem onStartup_Transferers (plugins : List PluginHandler) (t : Transfer) :
    (onStartup plugins t).Transferers =
      t.Transferers ++ plugins.filter (fun pl => pl.transferer) ∧
    (onStartup plugins t).xfrs = t.xfrs ∧ (onStartup plugins t).Next = t.Next := by
  induction plugins generalizing t with
  | nil => simp [onStartup]
  | cons pl rest ih =>
    unfold onStartup at ih ⊢
    simp only [List.foldl_cons]
    by_cases hp : pl.transferer = true
    · obtain ⟨h1, h2, h3⟩ := ih { t with Transferers := t.Transferers ++ [pl] }
      simp only [hp, if_true]
      refine ⟨?_, h2, h3⟩
      rw [h1]
      simp [List.filter_cons, hp]
    · have hf : pl.transferer = false := by simpa using hp
      obtain ⟨h1, h2, h3⟩ := ih t
      simp only [hf, Bool.false_eq_true, if_false]
      refine ⟨?_, h2, h3⟩
      rw [h1]
      simp [List.filter_cons, hf]


theorem toHost_valid (lib : Lib) (x : xfr) (pos host : String) (h : validToken lib host) :
    ∃ x1, toHost lib x pos host = .ok x1 ∧
      x1.«to».length + x1.toNet.length = x.«to».length + x.toNet.length + 1 ∧
      x.«to».length ≤ x1.«to».length ∧
      ((host = "*" ∨ lib.ParseCIDR host = none) → x1.«to» ≠ []) := by
  unfold toHost
  by_cases hs : host = "*"
  · rw [if_pos hs]
    refine ⟨_, rfl, ?_, ?_, ?_⟩
    · simp; omega
    · simp
    · intro _; simp
  · rw [if_neg hs]
    cases hc : lib.ParseCIDR host with
    | some n =>
      refine ⟨_, rfl, ?_, ?_, ?_⟩
      · simp; omega
      · simp
      · rintro (h1 | h1)
        · exact absurd h1 hs
        · cases h1
    | none =>
      cases hp : HostPort lib host transportPort with
      | some norm =>
        refine ⟨_, rfl, ?_, ?_, ?_⟩
        · simp; omega
        · simp
        · intro _; simp
      | none =>
        rcases h with h | h | h
        · exact absurd h hs
        · rw [hc] at h; cases h
        · rw [hp] at h; cases h

/-- Arguments that are all valid are all recorded, and the host list is not
empty when one of them is not a network. -/
theorem toArgs_all_valid (lib : Lib) (pos : String) (args : List String) :
    ∀ x : xfr, (∀ a ∈ args, validToken lib a) →
      ∃ x1, toArgs lib x pos args = .ok x1 ∧
        x1.«to».length + x1.toNet.length = x.«to».length + x.toNet.length + args.length ∧
        x.«to».length ≤ x1.«to».length ∧
        ((∃ a ∈ args, a = "*" ∨ lib.ParseCIDR a = none) → x1.«to» ≠ []) := by
  induction args with
  | nil =>
    intro x _
    exact ⟨x, rfl, by simp, le_refl _, by rintro ⟨a, ha, _⟩; cases ha⟩
  | cons a rest ih =>
    intro x hall
    obtain ⟨x1, h1, hcount1, hle1, hne1⟩ := toHost_valid lib x pos a (hall a (List.mem_cons_self _ _))
    obtain ⟨x2, h2, hcount2, hle2, hne2⟩ := ih x1 (fun b hb => hall b (List.mem_cons_of_mem _ hb))
    refine ⟨x2, ?_, ?_, le_trans hle1 hle2, ?_⟩
    · simp only [toArgs, h1]
      exact h2
    · simp only [List.length_cons]
      omega
    · rintro ⟨b, hb, hcase⟩
      rcases List.mem_cons.1 hb with rfl | hr
      · have := hne1 hcase
        intro h0
        rw [h0] at hle2
        simp at hle2
        exact this hle2
      · exact hne2 ⟨b, hr, hcase⟩

/-- A directive whose block is one `to` line of valid tokens, one of them not
a network, is accepted, and its rule records every token. -/
theorem valid_block_accepted (lib : Lib) (keys : List String) (d : Directive) (l : Line)
    (hblock : d.block = [l]) (hval : l.val = "to")
    (hvalid : ∀ a ∈ l.args, validToken lib a)
    (hhost : ∃ a ∈ l.args, a = "*" ∨ lib.ParseCIDR a = none) :
    ∃ x, parseTransfer lib { ServerBlockKeys := keys, directives := [d] } =
        .ok { xfrs := [x] } ∧
      x.«to».length + x.toNet.length = l.args.length := by
  obtain ⟨x, hx, hcount, _, hne⟩ := toArgs_all_valid lib l.pos l.args
    { Zones := lib.OriginsFromArgsOrServerBlock d.args keys } hvalid
  have hargs : ¬ l.args.length = 0 := by
    obtain ⟨a, ha, _⟩ := hhost
    intro h0
    rw [List.eq_nil_of_length_eq_zero h0] at ha
    cases ha
  have hto : ¬ x.«to».length = 0 := fun hz => hne hhost (List.eq_nil_of_length_eq_zero hz)
  refine ⟨x, ?_, by simpa using hcount⟩
  unfold parseTransfer
  simp only [parseDirectives, parseXfr, hblock, blockLines, blockLine, if_pos hval,
    if_neg hargs, hx, if_neg hto, List.nil_append]

/-! ## The properties of the transfer setup -/

/-- C12: a token of `to` is classified by the first rule that succeeds: the
literal `*` goes to the host list; otherwise a token `net.ParseCIDR` accepts
goes, as the network, to the network list; otherwise a token `parse.HostPort`
accepts goes to the host list in its normalized form, with the default port 53
when the token has no port; a token that is none of the three makes
parseTransfer return, and no Transfer with it, an error whose text ends with
the token as the verb q prints it, and so contains the token when that
prints it as it is. -/
theorem token_classification (lib : Lib) (x : xfr) (pos host : String) :
    (host = "*" → toHost lib x pos host = .ok { x with «to» := x.«to» ++ ["*"] }) ∧
    (host ≠ "*" → ∀ n, lib.ParseCIDR host = some n →
      toHost lib x pos host = .ok { x with toNet := x.toNet ++ [n] }) ∧
    (host ≠ "*" → lib.ParseCIDR host = none →
      ∀ normalized, HostPort lib host transportPort = some normalized →
      toHost lib x pos host = .ok { x with «to» := x.«to» ++ [normalized] }) ∧
    (lib.SplitHostPort host = none → lib.ParseIP host = true →
      HostPort lib host transportPort = some (JoinHostPort host "53")) ∧
    (∀ addr port, lib.SplitHostPort host = some (addr, port) → lib.ParseIP addr = true →
      HostPort lib host transportPort =
        some (JoinHostPort addr (if port = "" then "53" else port))) ∧
    (host ≠ "*" → lib.ParseCIDR host = none → HostPort lib host transportPort = none →
      toHost lib x pos host = .error (pluginError "transfer"
        (Err pos ("to must be a '*', IP:Port, IP, or CIDR: " ++ lib.Quote host))) ∧
      (∀ a b, lib.Quote host = a ++ host ++ b →
        ∃ pre post, pluginError "transfer"
          (Err pos ("to must be a '*', IP:Port, IP, or CIDR: " ++ lib.Quote host)) =
            pre ++ host ++ post) ∧
      ∀ (c : Controller) (dpre dpost : List Directive) (d : Directive)
        (lpre lpost : List Line) (l : Line) (apre apost : List String)
        (t1 : Transfer) (x1 : xfr),
        c.directives = dpre ++ d :: dpost →
        parseDirectives lib c.ServerBlockKeys {} dpre = .ok t1 →
        d.block = lpre ++ l :: lpost →
        blockLines lib { Zones := lib.OriginsFromArgsOrServerBlock d.args c.ServerBlockKeys }
          lpre = .ok x1 →
        l.val = "to" → l.pos = pos → l.args = apre ++ host :: apost →
        toArgs lib x1 pos apre = .ok x →
        parseTransfer lib c = .error (pluginError "transfer"
          (Err pos ("to must be a '*', IP:Port, IP, or CIDR: " ++ lib.Quote host)))) := by
  refine ⟨?_, ?_, ?_, ?_, ?_, ?_⟩
  · intro h
    subst h
    simp [toHost]
  · intro h n hn
    simp [toHost, h, hn]
  · intro h hc normalized hn
    simp [toHost, h, hc, hn]
  · intro hs hip
    simp [HostPort, hs, hip, transportPort]
  · intro addr port hs hip
    simp [HostPort, hs, hip, transportPort]
  · intro h hc hn
    have hstep : toHost lib x pos host = .error (pluginError "transfer"
        (Err pos ("to must be a '*', IP:Port, IP, or CIDR: " ++ lib.Quote host))) := by
      simp [toHost, h, hc, hn]
    refine ⟨hstep, ?_, ?_⟩
    · intro a b hq
      refine ⟨"plugin/" ++ "transfer" ++ ": " ++ (pos ++ " - Error during parsing: " ++
        ("to must be a '*', IP:Port, IP, or CIDR: " ++ a)), b, ?_⟩
      rw [hq]
      simp only [pluginError, Err, String.append_assoc]
    · intro c dpre dpost d lpre lpost l apre apost t1 x1 hds hpre hbl hlpre hval hpos hargs hapre
      have hline : blockLine lib x1 l = .error (pluginError "transfer"
          (Err pos ("to must be a '*', IP:Port, IP, or CIDR: " ++ lib.Quote host))) := by
        unfold blockLine
        rw [if_pos hval, hargs, if_neg (by simp), hpos, toArgs_append, hapre]
        simp only [toArgs, hstep]
      have hx : parseXfr lib c.ServerBlockKeys d = .error (pluginError "transfer"
          (Err pos ("to must be a '*', IP:Port, IP, or CIDR: " ++ lib.Quote host))) := by
        unfold parseXfr
        simp only []
        rw [hbl, blockLines_append, hlpre]
        simp only [blockLines, hline]
      unfold parseTransfer
      rw [hds, parseDirectives_append, hpre]
      simp only [parseDirectives, hx]

theorem token_classification_witness :
    toHost exampleLib {} "Corefile:3" "10.0.0.0/24" =
      .ok { toNet := [⟨[10, 0, 0, 0], [255, 255, 255, 0]⟩] } ∧
    toHost exampleLib {} "Corefile:3" "10.0.0.5" = .ok { «to» := ["10.0.0.5:53"] } ∧
    parseTransfer exampleLib badToken = .error
      "plugin/transfer: Corefile:3 - Error during parsing: to must be a '*', IP:Port, IP, or CIDR: \"example.net\"" :=
  ⟨(token_classification exampleLib {} "Corefile:3" "10.0.0.0/24").2.1 (by decide) _ rfl,
   (token_classification exampleLib {} "Corefile:3" "10.0.0.5").2.2.1 (by decide) rfl
     "10.0.0.5:53" rfl,
   ((token_classification exampleLib { Zones := ["example.org."], «to» := ["*"] } "Corefile:3"
      "example.net").2.2.2.2.2 (by decide) rfl rfl).2.2
      badToken [] [] _ [] [] _ ["*"] [] {} _ rfl rfl rfl rfl rfl rfl rfl rfl⟩

/-- C13: a block whose only allow-list tokens are networks is rejected: when
`net.ParseCIDR` accepts every argument of the one `to` line of the first
directive, and there is at least one, parseTransfer returns the error that
`to` is required and no rule, although every token was recorded in the network
list; so it is with the block whose allow-list is 10.0.0.0/24. -/
theorem cidr_only_block_rejected (lib : Lib) (keys : List String) (d : Directive)
    (rest : List Directive) (l : Line)
    (hblock : d.block = [l]) (hval : l.val = "to") (hargs : l.args ≠ [])
    (hcidr : ∀ a ∈ l.args, a ≠ "*" ∧ (lib.ParseCIDR a).isSome = true) :
    parseTransfer lib { ServerBlockKeys := keys, directives := d :: rest } =
      .error (pluginError "transfer" (Err d.endPos "'to' is required")) ∧
    ∃ x, blockLines lib { Zones := lib.OriginsFromArgsOrServerBlock d.args keys } d.block = .ok x ∧
      x.«to» = [] ∧ x.toNet = l.args.filterMap lib.ParseCIDR := by
  obtain ⟨x, hx, hto, hnet⟩ := toArgs_all_cidr lib
    { Zones := lib.OriginsFromArgsOrServerBlock d.args keys } l.pos l.args hcidr
  have hlen : ¬ l.args.length = 0 := by
    intro h0
    exact hargs (List.eq_nil_of_length_eq_zero h0)
  have hb : blockLines lib { Zones := lib.OriginsFromArgsOrServerBlock d.args keys } d.block =
      .ok x := by
    rw [hblock]
    simp only [blockLines, blockLine, if_pos hval, if_neg hlen, hx]
  refine ⟨?_, x, hb, hto, by simpa using hnet⟩
  unfold parseTransfer
  simp only [parseDirectives, parseXfr, hb, hto, List.length_nil, if_true]

theorem cidr_only_block_rejected_witness :
    exampleLib.ParseCIDR "10.0.0.0/24" = some ⟨[10, 0, 0, 0], [255, 255, 255, 0]⟩ ∧
    parseTransfer exampleLib cidrOnly =
      .error "plugin/transfer: Corefile:4 - Error during parsing: 'to' is required" :=
  ⟨rfl, (cidr_only_block_rejected exampleLib ["example.org."]
    { args := [], endPos := "Corefile:4",
      block := [{ val := "to", args := ["10.0.0.0/24"], pos := "Corefile:3" }] } []
    { val := "to", args := ["10.0.0.0/24"], pos := "Corefile:3" } rfl rfl (by decide)
    (by decide)).1⟩

/-- C14: a configuration with a directive whose block has no `to` property, or
a `to` property without arguments, or a property other than `to`, makes
parseTransfer, and setup with it, return an error and no Transfer; and every
rule of a Transfer that parseTransfer does return has a host list that is not
empty. -/
theorem malformed_block_rejected (lib : Lib) (c : Controller) (d : Directive)
    (hd : d ∈ c.directives)
    (hbad : (∀ l ∈ d.block, l.val ≠ "to") ∨ (∃ l ∈ d.block, l.val = "to" ∧ l.args = []) ∨
      (∃ l ∈ d.block, l.val ≠ "to")) :
    (∃ e, parseTransfer lib c = .error e) ∧ (∃ e, setup lib c = .error e) ∧
    (∀ (lib0 : Lib) (c0 : Controller) (t : Transfer), parseTransfer lib0 c0 = .ok t →
      ∀ x ∈ t.xfrs, x.«to» ≠ []) := by
  have hx : ∀ x, parseXfr lib c.ServerBlockKeys d ≠ .ok x := by
    intro x hok
    obtain ⟨hne, hall⟩ := parseXfr_ok_lines lib _ d x hok
    rcases hbad with h | ⟨l, hl, _, ha⟩ | ⟨l, hl, hv⟩
    · cases hb : d.block with
      | nil => exact hne hb
      | cons l0 _ =>
        have hm : l0 ∈ d.block := by rw [hb]; exact List.mem_cons_self _ _
        exact h l0 hm (hall l0 hm).1
    · exact (hall l hl).2 ha
    · exact hv (hall l hl).1
  obtain ⟨e, he⟩ := parseDirectives_error_of_mem lib c.ServerBlockKeys {} c.directives d hd hx
  refine ⟨⟨e, he⟩, ⟨pluginError "transfer" e, ?_⟩, ?_⟩
  · unfold setup
    unfold parseTransfer at *
    rw [he]
  · intro lib0 c0 t ht x hxm
    rcases (parseDirectives_ok_to lib0 _ _ _ _ ht).2 x hxm with h | h
    · cases h
    · exact h

theorem malformed_block_rejected_witness :
    noBlock ∈ [noBlock] ∧ (∀ l ∈ noBlock.block, l.val ≠ "to") ∧
    (∃ e, parseTransfer exampleLib { ServerBlockKeys := [], directives := [noBlock] } =
      .error e) :=
  ⟨List.mem_cons_self _ _, by decide,
   (malformed_block_rejected exampleLib { ServerBlockKeys := [], directives := [noBlock] }
     noBlock (List.mem_cons_self _ _) (Or.inl (by decide))).1⟩

/-- C16: the startup hook, run once on a Transfer whose list Transferers is
empty (as that of the Transfer setup installs is), leaves in Transferers
exactly the handlers of the server that implement Transferer, in the order of
the handler list: a sublist of it that holds a handler if and only if the
handler is in the list with the capability, as often as the list holds it. -/
theorem startup_collects_transferers (plugins : List PluginHandler) (t : Transfer)
    (hempty : t.Transferers = []) :
    (onStartup plugins t).Transferers = plugins.filter (fun pl => pl.transferer) ∧
    List.Sublist (onStartup plugins t).Transferers plugins ∧
    (∀ pl, pl ∈ (onStartup plugins t).Transferers ↔ (pl ∈ plugins ∧ pl.transferer = true)) ∧
    (∀ pl, pl.transferer = true →
      (onStartup plugins t).Transferers.count pl = plugins.count pl) ∧
    (onStartup plugins t).xfrs = t.xfrs ∧
    (∀ (lib : Lib) (c : Controller) (t0 : Transfer), setup lib c = .ok t0 →
      t0.Transferers = []) := by
  obtain ⟨h1, h2, _⟩ := onStartup_Transferers plugins t
  rw [hempty, List.nil_append] at h1
  refine ⟨h1, ?_, ?_, ?_, h2, ?_⟩
  · rw [h1]; exact List.filter_sublist _
  · intro pl
    rw [h1]
    simp [List.mem_filter]
  · intro pl hp
    rw [h1, List.count_filter]
    simpa using hp
  · intro lib c t0 h
    unfold setup at h
    cases hp : parseTransfer lib c with
    | error e => rw [hp] at h; cases h
    | ok t1 =>
      rw [hp] at h
      cases h
      exact (parseDirectives_ok_to lib _ _ _ _ hp).1

theorem startup_collects_transferers_witness :
    ({} : Transfer).Transferers = [] ∧
    (onStartup examplePlugins {}).Transferers =
      [{ Name := "file", transferer := true }, { Name := "secondary", transferer := true }] :=
  ⟨rfl, (startup_collects_transferers examplePlugins {} rfl).1⟩

end TransferPlugin

namespace DirectivesGenerate

/-! ## Lemmas on the generator -/

theorem has_map_key (m : StringMap) (k v n : String) :
    StringMap.has (m.map (fun e => if e.1 = k then (k, v) else e)) n = StringMap.has m n := by
  induction m with
  | nil => rfl
  | cons e rest ih =>
    unfold StringMap.has at ih ⊢
    simp only [List.map_cons, List.any_cons, ih]
    by_cases he : e.1 = k
    · simp [he]
    · simp [he]

theorem has_set (m : StringMap) (k v n : String) :
    (m.set k v).has n = true ↔ (m.has n = true ∨ n = k) := by
  unfold StringMap.set
  by_cases hk : m.has k = true
  · rw [if_pos hk, has_map_key]
    constructor
    · exact Or.inl
    · rintro (h | rfl)
      · exact h
      · exact hk
  · rw [if_neg hk]
    unfold StringMap.has
    simp only [List.any_append, List.any_cons, List.any_nil, Bool.or_false, Bool.or_eq_true,
      decide_eq_true_eq]
    constructor
    · rintro (h | h)
      · exact Or.inl h
      · exact Or.inr h.symm
    · rintro (h | h)
      · exact Or.inl h
      · exact Or.inr h.symm

theorem addPlugin_dup (env : Env) (mi : StringMap) (md : List String) (name repo : String)
    (hinv : Inv mi md) (h : name ∈ md) :
    addPlugin env mi md name repo = .error ("Duplicate entry " ++ env.Quote name) := by
  unfold addPlugin
  rw [if_pos ((hinv name).2 h)]

theorem addPlugin_new (env : Env) (mi : StringMap) (md : List String) (name repo : String)
    (hinv : Inv mi md) (h : name ∉ md) :
    ∃ mi1, addPlugin env mi md name repo = .ok (mi1, md ++ [name]) ∧ Inv mi1 (md ++ [name]) := by
  have hno : ¬ mi.has name = true := fun hh => h ((hinv name).1 hh)
  unfold addPlugin
  rw [if_neg hno]
  refine ⟨_, rfl, ?_⟩
  intro n
  have h1 : (mi.set name (pluginPath ++ repo)).has n = true ↔ n ∈ md ++ [name] := by
    rw [has_set, hinv n]
    simp
  by_cases hs : env.statOK (pluginFSPath ++ repo) = true
  · simpa [hs] using h1
  · simp only [hs, Bool.not_false, if_true]
    rw [has_set, h1]
    simp

/-- A sequence of calls of `addPlugin` goes through exactly when no name is
added twice, and then appends the names in order. -/
theorem addPlugins_spec (env : Env) (ps : List (String × String)) :
    ∀ (mi : StringMap) (md : List String), Inv mi md → md.Nodup →
      ((md ++ ps.map Prod.fst).Nodup ∧
        ∃ mi1, addPlugins env mi md ps = .ok (mi1, md ++ ps.map Prod.fst)) ∨
      (¬ (md ++ ps.map Prod.fst).Nodup ∧
        ∃ name ∈ ps.map Prod.fst,
          addPlugins env mi md ps = .error ("Duplicate entry " ++ env.Quote name)) := by
  induction ps with
  | nil =>
    intro mi md _ hnd
    left
    simp [addPlugins, hnd]
  | cons p rest ih =>
    intro mi md hinv hnd
    obtain ⟨name, repo⟩ := p
    by_cases hmem : name ∈ md
    · right
      refine ⟨?_, name, by simp, ?_⟩
      · intro hn
        rw [List.nodup_append] at hn
        exact hn.2.2 hmem (by simp)
      · simp only [addPlugins, addPlugin_dup env mi md name repo hinv hmem]
    · obtain ⟨mi1, hok, hinv1⟩ := addPlugin_new env mi md name repo hinv hmem
      have hnd1 : (md ++ [name]).Nodup := by
        rw [List.nodup_append]
        refine ⟨hnd, by simp, ?_⟩
        intro a ha hb
        simp at hb
        subst hb
        exact hmem ha
      have hassoc : md ++ [name] ++ rest.map Prod.fst = md ++ ((name, repo) :: rest).map Prod.fst := by
        simp
      rcases ih mi1 (md ++ [name]) hinv1 hnd1 with ⟨h1, mi2, h2⟩ | ⟨h1, n, hn, h2⟩
      · left
        rw [hassoc] at h1 h2
        refine ⟨h1, mi2, ?_⟩
        simp only [addPlugins, hok]
        exact h2
      · right
        rw [hassoc] at h1
        refine ⟨h1, n, by simp at hn ⊢; exact Or.inr hn, ?_⟩
        simp only [addPlugins, hok]
        exact h2

theorem addPlugins_append (env : Env) (a b : List (String × String)) :
    ∀ (mi : StringMap) (md : List String),
      addPlugins env mi md (a ++ b) =
        match addPlugins env mi md a with
        | .error e => .error e
        | .ok (mi1, md1) => addPlugins env mi1 md1 b := by
  induction a with
  | nil => intro mi md; rfl
  | cons p rest ih =>
    intro mi md
    obtain ⟨name, repo⟩ := p
    simp only [List.cons_append, addPlugins]
    cases addPlugin env mi md name repo with
    | error e => rfl
    | ok st => exact ih st.1 st.2

theorem processLine_eq (env : Env) (mi : StringMap) (md : List String) (line : String) :
    processLine env mi md line = addPlugins env mi md (linePlugins env line) := by
  unfold processLine linePlugins
  split
  · rfl
  · split
    · rename_i name repo _
      simp only []
      cases env.extPlugInserts (String.mk name) with
      | none =>
        simp only [addPlugins]
        cases addPlugin env mi md (String.mk name) (String.mk repo) <;> rfl
      | some ins =>
        simp only []
        split
        · simp only [addPlugins]
          cases addPlugin env mi md (String.mk name) (String.mk repo) with
          | error e => rfl
          | ok st =>
            simp only []
            cases addPlugin env st.1 st.2 ins.name ins.repo <;> rfl
        · simp only [addPlugins]
          cases addPlugin env mi md ins.name ins.repo with
          | error e => rfl
          | ok st =>
            simp only []
            cases addPlugin env st.1 st.2 (String.mk name) (String.mk repo) <;> rfl
    · rfl

theorem mainLoop_eq (env : Env) (lines : List String) :
    ∀ (mi : StringMap) (md : List String),
      mainLoop env mi md lines = addPlugins env mi md (lines.flatMap (linePlugins env)) := by
  induction lines with
  | nil => intro mi md; rfl
  | cons line rest ih =>
    intro mi md
    simp only [mainLoop, List.flatMap_cons, addPlugins_append, processLine_eq]
    cases addPlugins env mi md (linePlugins env line) with
    | error e => rfl
    | ok st => exact ih st.1 st.2

theorem contribution_eq (env : Env) (line : String) :
    contribution env line = (linePlugins env line).map Prod.fst := by
  unfold contribution linePlugins
  split
  · rfl
  · split
    · cases env.extPlugInserts _ with
      | none => rfl
      | some ins =>
        simp only []
        split <;> rfl
    · rfl

theorem flatMap_contribution (env : Env) (lines : List String) :
    lines.flatMap (contribution env) = (lines.flatMap (linePlugins env)).map Prod.fst := by
  induction lines with
  | nil => rfl
  | cons l rest ih => simp [List.flatMap_cons, ih, contribution_eq]


theorem splitOn_ne_nil (sep : Char) (l : List Char) : splitOn sep l ≠ [] := by
  cases l with
  | nil => simp [splitOn]
  | cons c cs =>
    unfold splitOn
    split
    · simp
    · split <;> simp

theorem splitOn_length (sep : Char) (l : List Char) :
    (splitOn sep l).length = l.count sep + 1 := by
  induction l with
  | nil => rfl
  | cons c cs ih =>
    unfold splitOn
    by_cases hc : c = sep
    · subst hc
      simp [ih]
    · rw [if_neg hc]
      have hne := splitOn_ne_nil sep cs
      cases hs : splitOn sep cs with
      | nil => exact absurd hs hne
      | cons h t =>
        rw [hs] at ih
        simp only [List.length_cons] at ih ⊢
        rw [List.count_cons_of_ne (Ne.symm hc)]
        exact ih

theorem foldl_entries (md : List String) :
    ∀ init : String,
      md.foldl (fun outs name => outs ++ "\"" ++ name ++ "\"," ++ "\n") init =
        init ++ concat (md.map (fun name => "\"" ++ name ++ "\"," ++ "\n")) := by
  induction md with
  | nil => intro init; simp [concat]
  | cons n rest ih =>
    intro init
    simp only [List.foldl_cons, List.map_cons, concat]
    rw [ih]
    simp only [String.append_assoc]

/-! ## The property of the generator -/

/-- C18: the directive list of the main loop is the names the lines of
plugin.cfg contribute, in file order: a line beginning with `#` and a line
that does not split into exactly two fields at `:` (that has not exactly one
`:`) contribute nothing; any other line contributes its name, with the
external plugin whose landmark it is right after it when its flag After is
set and right before it otherwise.  When no name is contributed twice the
loop ends with that list; otherwise generation is aborted with a
duplicate-entry failure; so a list that is generated has no repeated name,
and genDirectives writes its names in that order. -/
theorem directives_in_file_order (env : Env) (lines : List String) :
    (∀ mi md, main env lines = .ok (mi, md) →
      md = lines.flatMap (contribution env) ∧ md.Nodup) ∧
    ((lines.flatMap (contribution env)).Nodup →
      ∃ mi, main env lines = .ok (mi, lines.flatMap (contribution env))) ∧
    (¬ (lines.flatMap (contribution env)).Nodup →
      ∃ name ∈ lines.flatMap (contribution env),
        main env lines = .error ("Duplicate entry " ++ env.Quote name)) ∧
    (∀ line : String, line.data.head? = some '#' → contribution env line = []) ∧
    (∀ line : String, line.data.count ':' ≠ 1 → contribution env line = []) ∧
    (∀ (line : String) (name repo : List Char),
      line.data.head? ≠ some '#' → splitOn ':' line.data = [name, repo] →
      (env.extPlugInserts (String.mk name) = none →
        contribution env line = [String.mk name]) ∧
      (∀ ins, env.extPlugInserts (String.mk name) = some ins →
        (ins.after = true → contribution env line = [String.mk name, ins.name]) ∧
        (ins.after = false → contribution env line = [ins.name, String.mk name]))) ∧
    (∀ (pack : String) (md : List String), genDirectives pack md =
      directivesHead pack ++ concat (md.map (fun name => "\"" ++ name ++ "\"," ++ "\n")) ++
        "\x7d\n") := by
  have hspec := addPlugins_spec env (lines.flatMap (linePlugins env)) [] []
    (fun n => by simp [StringMap.has]) List.nodup_nil
  have hmain : main env lines = addPlugins env [] [] (lines.flatMap (linePlugins env)) :=
    mainLoop_eq env lines [] []
  rw [List.nil_append, ← flatMap_contribution, ← hmain] at hspec
  refine ⟨?_, ?_, ?_, ?_, ?_, ?_, ?_⟩
  · intro mi md hok
    rcases hspec with ⟨hnd, mi1, h1⟩ | ⟨_, n, _, h1⟩
    · rw [h1] at hok
      cases hok
      exact ⟨rfl, hnd⟩
    · rw [h1] at hok
      cases hok
  · intro hnd
    rcases hspec with ⟨_, mi1, h1⟩ | ⟨hn, _⟩
    · exact ⟨mi1, h1⟩
    · exact absurd hnd hn
  · intro hnd
    rcases hspec with ⟨hn, _⟩ | ⟨_, n, hn, h1⟩
    · exact absurd hn hnd
    · exact ⟨n, hn, h1⟩
  · intro line h
    unfold contribution
    rw [if_pos h]
  · intro line h
    have hlen : (splitOn ':' line.data).length ≠ 2 := by
      rw [splitOn_length]
      omega
    unfold contribution
    split
    · rfl
    · split
      · rename_i heq
        rw [heq] at hlen
        exact absurd rfl hlen
      · rfl
  · intro line name repo h hs
    refine ⟨?_, ?_⟩
    · intro hnone
      unfold contribution
      rw [if_neg h, hs]
      simp only [hnone]
    · intro ins hsome
      refine ⟨?_, ?_⟩
      · intro ha
        unfold contribution
        rw [if_neg h, hs]
        simp only [hsome, ha, if_true]
      · intro ha
        unfold contribution
        rw [if_neg h, hs]
        simp [hsome, ha]
  · intro pack md
    unfold genDirectives
    simp only []
    rw [foldl_entries]

theorem directives_in_file_order_witness :
    (exampleCfg.flatMap (contribution exampleEnv)).Nodup ∧
    exampleCfg.flatMap (contribution exampleEnv) = ["tsig", "cache", "example", "transfer"] ∧
    ∃ mi, main exampleEnv exampleCfg = .ok (mi, exampleCfg.flatMap (contribution exampleEnv)) :=
  ⟨by decide, by decide, (directives_in_file_order exampleEnv exampleCfg).2.1 (by decide)⟩

end DirectivesGenerate
